import Mathlib

/-!
# FMODStudioModule: listener tracking and reverb snapshot blending

A shallow embedding of the listener / reverb-snapshot subsystem of
`FMODStudio/Source/FMODStudio/Private/FMODStudioModule.cpp`.

Conventions of the embedding:

* `float` and `double` values are exact rationals (`ℚ`); every statement below is a
  statement over exact arithmetic.
* `FApp::GetCurrentTime()` is an explicit argument `CurrentTime`; it is the same value for
  every query made during one call of `FinishSetListenerPosition`.
* Pointers are `Option` values, `none` being `nullptr`; object identity is the identity of
  the `Nat` handle.
* Calls into the audio engine are recorded, in order, as a list of `EngineOp`.
-/

namespace FMODStudio

/-! ## Snapshot entries (source lines 33-75) -/

/-- The function `FMath::Lerp<float>(A, B, Alpha)`, that is `A + Alpha * (B - A)`. -/
def Lerp (A B Alpha : ℚ) : ℚ := A + Alpha * (B - A)

/-- The struct `FFMODSnapshotEntry`: a snapshot descriptor pointer, the owned event
instance pointer, and the fade state. -/
structure FFMODSnapshotEntry where
  Snapshot : Option Nat
  Instance : Option Nat
  StartTime : ℚ
  FadeDuration : ℚ
  FadeIntensityStart : ℚ
  FadeIntensityEnd : ℚ
deriving DecidableEq

namespace FFMODSnapshotEntry

/-- The constructor `FFMODSnapshotEntry(InSnapshot, InInstance)`: all fade fields zero. -/
def new (InSnapshot : Option Nat) (InInstance : Option Nat) : FFMODSnapshotEntry :=
  { Snapshot := InSnapshot, Instance := InInstance, StartTime := 0, FadeDuration := 0,
    FadeIntensityStart := 0, FadeIntensityEnd := 0 }

/-- The method `CurrentIntensity()` with the clock reading passed in. The quotient of the
second branch is evaluated with a zero `FadeDuration` only when `CurrentTime < StartTime`
(see `CurrentIntensity_divisor_pos`). -/
def CurrentIntensity (e : FFMODSnapshotEntry) (CurrentTime : ℚ) : ℚ :=
  if e.StartTime + e.FadeDuration ≤ CurrentTime then
    e.FadeIntensityEnd
  else
    Lerp e.FadeIntensityStart e.FadeIntensityEnd ((CurrentTime - e.StartTime) / e.FadeDuration)

/-- The method `FadeTo(Target, Duration)` with the clock reading passed in. -/
def FadeTo (e : FFMODSnapshotEntry) (CurrentTime : ℚ) (Target Duration : ℚ) :
    FFMODSnapshotEntry :=
  { e with
    StartTime := CurrentTime
    FadeDuration := Duration
    FadeIntensityStart := e.CurrentIntensity CurrentTime
    FadeIntensityEnd := Target }

end FFMODSnapshotEntry

/-! ## Vectors, transforms, audio volumes and listeners -/

/-- The engine type `FVector`. -/
structure FVector where
  X : ℚ
  Y : ℚ
  Z : ℚ
deriving DecidableEq

namespace FVector

/-- The constant `FVector::ZeroVector`. -/
def ZeroVector : FVector := ⟨0, 0, 0⟩

/-- Component-wise `operator-`. -/
def sub (A B : FVector) : FVector := ⟨A.X - B.X, A.Y - B.Y, A.Z - B.Z⟩

/-- The operator `operator/(float Scale)`. -/
def div (A : FVector) (Scale : ℚ) : FVector := ⟨A.X / Scale, A.Y / Scale, A.Z / Scale⟩

/-- The function `FVector::DistSquared(V1, V2)`. -/
def DistSquared (V1 V2 : FVector) : ℚ :=
  (V2.X - V1.X) * (V2.X - V1.X) + (V2.Y - V1.Y) * (V2.Y - V1.Y) + (V2.Z - V1.Z) * (V2.Z - V1.Z)

end FVector

/-- The engine type `FQuat`. -/
structure FQuat where
  X : ℚ
  Y : ℚ
  Z : ℚ
  W : ℚ
deriving DecidableEq

/-- The engine type `FTransform`; `GetTranslation()` is the field `Translation`. -/
structure FTransform where
  Rotation : FQuat
  Translation : FVector
  Scale3D : FVector
deriving DecidableEq

/-- The constant `FTransform::Identity`: no rotation, zero translation, unit scale. -/
def FTransform.Identity : FTransform :=
  { Rotation := ⟨0, 0, 0, 1⟩, Translation := FVector.ZeroVector, Scale3D := ⟨1, 1, 1⟩ }

/-- A `UReverbEffect*` target: either an object of the subclass `UFMODSnapshotReverb` or
an object of any other class. -/
inductive UReverbEffect where
  | SnapshotReverb (Id : Nat)
  | Other (Id : Nat)
deriving DecidableEq

/-- The cast `Cast<UFMODSnapshotReverb>(ReverbEffect)`: the object when it is a snapshot
reverb, `nullptr` otherwise. -/
def CastSnapshotReverb : Option UReverbEffect → Option Nat
  | some (UReverbEffect.SnapshotReverb s) => some s
  | _ => none

/-- The engine type `FReverbSettings` (the member `AAudioVolume::Settings`). -/
structure FReverbSettings where
  bApplyReverb : Bool
  ReverbEffect : Option UReverbEffect
  Volume : ℚ
  FadeTime : ℚ
deriving DecidableEq

/-- The engine type `AAudioVolume`, restricted to the members the module reads. -/
structure AAudioVolume where
  Priority : ℚ
  Settings : FReverbSettings
deriving DecidableEq

/-- The engine type `FInteriorSettings`; the module only passes it on. -/
structure FInteriorSettings where
  Values : List ℚ
deriving DecidableEq

/-- The struct `FFMODListener` (declared in `FMODListener.h`), restricted to the members
the module reads and writes. -/
structure FFMODListener where
  Transform : FTransform
  Velocity : FVector
  Volume : Option AAudioVolume
  InteriorSettings : FInteriorSettings
deriving DecidableEq

namespace FFMODListener

/-- Modelled from the spec: the default constructor `FFMODListener()` of `FMODListener.h`
gives the neutral state (zero transform, zero velocity, no volume). -/
def new : FFMODListener :=
  { Transform := FTransform.Identity, Velocity := FVector.ZeroVector, Volume := none,
    InteriorSettings := ⟨[]⟩ }

/-- Modelled from the spec: `ApplyInteriorSettings` of `FMODListener.cpp` stores the volume
containing the listener and the interior settings found there. -/
def ApplyInteriorSettings (L : FFMODListener) (InVolume : Option AAudioVolume)
    (Settings : FInteriorSettings) : FFMODListener :=
  { L with Volume := InVolume, InteriorSettings := Settings }

/-- Modelled from the spec: `UpdateCurrentInteriorSettings` of `FMODListener.cpp` advances
the interior interpolation by one step; transform, velocity and volume are not written. -/
def UpdateCurrentInteriorSettings (L : FFMODListener) : FFMODListener := L

end FFMODListener

/-- The collaborator `UWorld`: `GetAudioSettings(Location, NULL, &InteriorSettings)` gives
the audio volume at a point (or `nullptr`) and the interior settings there. -/
structure UWorld where
  GetAudioSettings : FVector → Option AAudioVolume × FInteriorSettings

/-- The collaborator `FMOD::Studio::System`, as far as its answers matter:
`getEventByID` for the GUID of a snapshot and `createInstance` on a description; each may
leave its out-pointer null. -/
structure StudioSystem where
  getEventByID : Nat → Option Nat
  createInstance : Nat → Option Nat

/-- One call into the audio engine. An instance argument is the pointer the call is made
on, `none` being a null pointer. For `setListenerAttributes` the position and velocity are
recorded before unit conversion and the orientation is left out (both come from helpers of
`FMODUtils.h` and `FMODListener.h`). -/
inductive EngineOp where
  | setNumListeners (Count : Int)
  | setListenerAttributes (ListenerIndex : Nat) (Position Velocity : FVector)
  | setParameterValue (Instance : Option Nat) (Value : ℚ)
  | start (Instance : Option Nat)
  | stop (Instance : Option Nat)
  | release (Instance : Option Nat)
deriving DecidableEq

/-! ## The module state -/

/-- Modelled from the spec: `FMOD_MAX_LISTENERS` of the vendor header `fmod_common.h`
is 8; the module is built with `FMOD_VERSION >= 0x00010600`. -/
def MAX_LISTENERS : Nat := 8

/-- The constant `FLT_MAX` of `<cfloat>`: `(2^24 - 1) * 2^104`. -/
def FLT_MAX : ℚ := 340282346638528859811704183484516925440

/-- The members of `FFMODStudioModule` that the listener and reverb code touches.
`StudioSystemRuntime` tells whether `StudioSystem[EFMODSystemContext::Runtime]` is
non-null. -/
structure FFMODStudioModule where
  StudioSystemRuntime : Bool
  Listeners : List FFMODListener
  ListenerCount : Int
  ReverbSnapshots : List FFMODSnapshotEntry
  bSimulating : Bool
  bIsInPIE : Bool
  bUseSound : Bool
  bListenerMoved : Bool
deriving DecidableEq

namespace FFMODStudioModule

/-- The constructor `FFMODStudioModule()`. -/
def new : FFMODStudioModule :=
  { StudioSystemRuntime := false
    Listeners := List.replicate MAX_LISTENERS FFMODListener.new
    ListenerCount := 1
    ReverbSnapshots := []
    bSimulating := false
    bIsInPIE := false
    bUseSound := true
    bListenerMoved := true }

/-- The array read `Listeners[i]`. -/
def Listener (m : FFMODStudioModule) (i : Nat) : FFMODListener :=
  m.Listeners.getD i FFMODListener.new

/-- The method `ResetInterpolation()`: every slot of `Listeners` becomes `FFMODListener()`. -/
def ResetInterpolation (m : FFMODStudioModule) : FFMODStudioModule :=
  { m with Listeners := m.Listeners.map (fun _ => FFMODListener.new) }

/-- One iteration of the loop of `GetNearestListener`, on the pair
`(BestDistSq, BestListener)`. -/
def NearestStep (m : FFMODStudioModule) (Location : FVector) (Best : ℚ × Nat) (i : Nat) :
    ℚ × Nat :=
  let DistSq := FVector.DistSquared Location (m.Listener i).Transform.Translation
  if DistSq < Best.1 then (DistSq, i) else Best

/-- The index `BestListener` at the end of the loop of `GetNearestListener`. -/
def GetNearestListenerIndex (m : FFMODStudioModule) (Location : FVector) : Nat :=
  ((List.range m.ListenerCount.toNat).foldl (m.NearestStep Location) (FLT_MAX, 0)).2

/-- The method `GetNearestListener(Location)`. -/
def GetNearestListener (m : FFMODStudioModule) (Location : FVector) : FFMODListener :=
  m.Listener (m.GetNearestListenerIndex Location)

/-- The method `SetListenerPosition(ListenerIndex, World, ListenerTransform, DeltaSeconds)`
(the `FMOD_VERSION >= 0x00010600` build). -/
def SetListenerPosition (m : FFMODStudioModule) (ListenerIndex : Nat) (World : UWorld)
    (ListenerTransform : FTransform) (DeltaSeconds : ℚ) :
    FFMODStudioModule × List EngineOp :=
  if m.StudioSystemRuntime = true ∧ ListenerIndex < MAX_LISTENERS then
    let ListenerPos := ListenerTransform.Translation
    let Found := World.GetAudioSettings ListenerPos
    let L0 := m.Listener ListenerIndex
    let L1 : FFMODListener :=
      { L0 with
        Velocity :=
          if DeltaSeconds > 0 then
            (ListenerTransform.Translation.sub L0.Transform.Translation).div DeltaSeconds
          else FVector.ZeroVector }
    let L2 : FFMODListener := { L1 with Transform := ListenerTransform }
    let L3 := L2.ApplyInteriorSettings Found.1 Found.2
    let Attributes := EngineOp.setListenerAttributes ListenerIndex ListenerPos L3.Velocity
    let m1 : FFMODStudioModule := { m with Listeners := m.Listeners.set ListenerIndex L3 }
    if (ListenerIndex : Int) ≥ m1.ListenerCount then
      ({ m1 with
          Listeners := m1.Listeners.set ListenerIndex FFMODListener.new
          ListenerCount := (ListenerIndex : Int) + 1
          bListenerMoved := true },
        [EngineOp.setNumListeners ((ListenerIndex : Int) + 1), Attributes])
    else
      ({ m1 with bListenerMoved := true }, [Attributes])
  else
    (m, [])

/-! ### `FinishSetListenerPosition` (source lines 571-680) -/

/-- One iteration of the dominant-volume loop (lines 596-603): the new `BestVolume` from
the old one and `CandidateVolume`. -/
def BestVolumeStep (BestVolume CandidateVolume : Option AAudioVolume) : Option AAudioVolume :=
  match BestVolume with
  | none => CandidateVolume
  | some Best =>
    match CandidateVolume with
    | none => BestVolume
    | some Candidate => if Candidate.Priority > Best.Priority then CandidateVolume else BestVolume

/-- The dominant-volume loop over the listeners `0 .. Count - 1`, starting from `nullptr`. -/
def SelectBestVolume (Listeners : List FFMODListener) (Count : Int) : Option AAudioVolume :=
  (List.range Count.toNat).foldl
    (fun BestVolume i => BestVolumeStep BestVolume (Listeners.getD i FFMODListener.new).Volume)
    none

/-- The pointer `NewSnapshot` (lines 604-608). -/
def SelectNewSnapshot (BestVolume : Option AAudioVolume) : Option Nat :=
  match BestVolume with
  | none => none
  | some Best =>
    if Best.Settings.bApplyReverb = true then CastSnapshotReverb Best.Settings.ReverbEffect
    else none

/-- The loop "try to steal old entry" (lines 618-626): the first index at or after
`Index` whose entry references `NewSnapshot`, `none` standing for the initial `-1`. -/
def StealOldEntry (NewSnapshot : Nat) : List FFMODSnapshotEntry → Nat → Option Nat
  | [], _ => none
  | e :: Rest, Index =>
    if e.Snapshot = some NewSnapshot then some Index
    else StealOldEntry NewSnapshot Rest (Index + 1)

/-- The block "create new instance" (lines 632-644): the pointer `NewInstance` and the
engine calls made on it. -/
def CreateNewInstance (Studio : StudioSystem) (NewSnapshot : Nat) :
    Option Nat × List EngineOp :=
  match Studio.getEventByID NewSnapshot with
  | none => (none, [])
  | some EventDesc =>
    match Studio.createInstance EventDesc with
    | none => (none, [])
    | some NewInstance =>
      (some NewInstance,
        [EngineOp.setParameterValue (some NewInstance) 0, EngineOp.start (some NewInstance)])

/-- The block "fade up" (lines 650-653) on the entry at `SnapshotEntryIndex`. -/
def FadeUp (Snapshots : List FFMODSnapshotEntry) (SnapshotEntryIndex : Nat) (CurrentTime : ℚ)
    (Best : AAudioVolume) : List FFMODSnapshotEntry :=
  match Snapshots[SnapshotEntryIndex]? with
  | none => Snapshots
  | some e =>
    if e.FadeIntensityEnd = 0 then
      Snapshots.set SnapshotEntryIndex (e.FadeTo CurrentTime Best.Settings.Volume Best.Settings.FadeTime)
    else Snapshots

/-- The branch `if (NewSnapshot != nullptr)` (lines 610-654): find or create the entry of
the selected snapshot and fade it up. -/
def SelectEntry (Studio : StudioSystem) (CurrentTime : ℚ) (BestVolume : Option AAudioVolume)
    (NewSnapshot : Option Nat) (Snapshots : List FFMODSnapshotEntry) :
    List FFMODSnapshotEntry × List EngineOp :=
  match NewSnapshot, BestVolume with
  | some Snapshot, some Best =>
    match StealOldEntry Snapshot Snapshots 0 with
    | some SnapshotEntryIndex => (FadeUp Snapshots SnapshotEntryIndex CurrentTime Best, [])
    | none =>
      let Created := CreateNewInstance Studio Snapshot
      let SnapshotEntryIndex := Snapshots.length
      (FadeUp (Snapshots ++ [FFMODSnapshotEntry.new (some Snapshot) Created.1])
          SnapshotEntryIndex CurrentTime Best,
        Created.2)
  | _, _ => (Snapshots, [])

/-- The loop "fade out all other entries" (lines 656-679), from index `i` on. Removing
the entry at `i` leaves `i` unchanged for the next iteration (`RemoveAt(i); --i; ++i`). -/
def BlendLoop (NewSnapshot : Option Nat) (CurrentTime : ℚ) (i : Nat)
    (Snapshots : List FFMODSnapshotEntry) : List FFMODSnapshotEntry × List EngineOp :=
  if h : i < Snapshots.length then
    let e := Snapshots[i]
    let SetIntensity := EngineOp.setParameterValue e.Instance (100 * e.CurrentIntensity CurrentTime)
    if e.Snapshot ≠ NewSnapshot then
      if e.FadeIntensityEnd ≠ 0 then
        let Next := BlendLoop NewSnapshot CurrentTime (i + 1)
          (Snapshots.set i (e.FadeTo CurrentTime 0 e.FadeDuration))
        (Next.1, SetIntensity :: Next.2)
      else if e.CurrentIntensity CurrentTime = 0 then
        let Next := BlendLoop NewSnapshot CurrentTime i (Snapshots.eraseIdx i)
        (Next.1, SetIntensity :: EngineOp.stop e.Instance :: EngineOp.release e.Instance :: Next.2)
      else
        let Next := BlendLoop NewSnapshot CurrentTime (i + 1) Snapshots
        (Next.1, SetIntensity :: Next.2)
    else
      let Next := BlendLoop NewSnapshot CurrentTime (i + 1) Snapshots
      (Next.1, SetIntensity :: Next.2)
  else
    (Snapshots, [])
termination_by Snapshots.length - i
decreasing_by
  all_goals simp_wf
  all_goals first
    | omega
    | (have hlen := List.length_eraseIdx_add_one h; omega)

/-- The listener count after the block "shrink number of listeners" (lines 580-587). -/
def ShrinkListenerCount (ListenerCount NumListeners : Int) : Int :=
  let Clamped := min NumListeners 1
  if Clamped < ListenerCount then Clamped else ListenerCount

/-- The loop of lines 589-592: `UpdateCurrentInteriorSettings` on the listeners
`0 .. Count - 1`. -/
def UpdateInterior (Listeners : List FFMODListener) (Count : Int) : List FFMODListener :=
  (List.range Count.toNat).foldl
    (fun Ls i => Ls.set i (Ls.getD i FFMODListener.new).UpdateCurrentInteriorSettings)
    Listeners

/-- The pointer `NewSnapshot` that `FinishSetListenerPosition(NumListeners, _)` selects in
state `m`. -/
def SelectedSnapshot (m : FFMODStudioModule) (NumListeners : Int) : Option Nat :=
  let Count := ShrinkListenerCount m.ListenerCount NumListeners
  SelectNewSnapshot (SelectBestVolume (UpdateInterior m.Listeners Count) Count)

/-- The method `FinishSetListenerPosition(NumListeners, DeltaSeconds)`, with the runtime
studio system and the clock reading of this tick passed in. -/
def FinishSetListenerPosition (m : FFMODStudioModule) (Studio : StudioSystem)
    (CurrentTime : ℚ) (NumListeners : Int) (_DeltaSeconds : ℚ) :
    FFMODStudioModule × List EngineOp :=
  if m.StudioSystemRuntime = false then
    (m, [])
  else
    let Count := ShrinkListenerCount m.ListenerCount NumListeners
    let ShrinkOps :=
      if min NumListeners 1 < m.ListenerCount then [EngineOp.setNumListeners Count] else []
    let Listeners := UpdateInterior m.Listeners Count
    let BestVolume := SelectBestVolume Listeners Count
    let NewSnapshot := SelectNewSnapshot BestVolume
    let Selected := SelectEntry Studio CurrentTime BestVolume NewSnapshot m.ReverbSnapshots
    let Blended := BlendLoop NewSnapshot CurrentTime 0 Selected.1
    ({ m with ListenerCount := Count, Listeners := Listeners, ReverbSnapshots := Blended.1 },
      ShrinkOps ++ Selected.2 ++ Blended.2)

/-- The method `SetInPIE(bInPIE, simulating)`, as far as it writes the members modelled
here. `CreateStudioSystem(Runtime)` leaves the runtime system null when `bUseSound` is
false and non-null otherwise; `DestroyStudioSystem(Runtime)` leaves it null. -/
def SetInPIE (m : FFMODStudioModule) (bInPIE simulating : Bool) : FFMODStudioModule :=
  let m1 : FFMODStudioModule :=
    { m with bIsInPIE := bInPIE, bSimulating := simulating, bListenerMoved := true }
  let m2 := m1.ResetInterpolation
  if bInPIE = true then
    { m2 with ListenerCount := 1, StudioSystemRuntime := m2.bUseSound }
  else
    { m2 with ReverbSnapshots := [], StudioSystemRuntime := false }

end FFMODStudioModule

/-- One call of a public method of the module, with the answers of its collaborators. -/
inductive ModuleCall where
  | SetListenerPosition (ListenerIndex : Nat) (World : UWorld) (ListenerTransform : FTransform)
      (DeltaSeconds : ℚ)
  | FinishSetListenerPosition (Studio : StudioSystem) (CurrentTime : ℚ) (NumListeners : Int)
      (DeltaSeconds : ℚ)
  | SetInPIE (bInPIE simulating : Bool)

/-- The module state after one call. -/
def ModuleCall.apply (m : FFMODStudioModule) : ModuleCall → FFMODStudioModule
  | ModuleCall.SetListenerPosition i W T d => (m.SetListenerPosition i W T d).1
  | ModuleCall.FinishSetListenerPosition S t n d => (m.FinishSetListenerPosition S t n d).1
  | ModuleCall.SetInPIE b s => m.SetInPIE b s

/-- The module state after a sequence of calls, starting from `m`. -/
def RunCalls (m : FFMODStudioModule) (Calls : List ModuleCall) : FFMODStudioModule :=
  Calls.foldl ModuleCall.apply m

/-- No two entries reference the same snapshot descriptor. -/
def UniqueDescriptors (Snapshots : List FFMODSnapshotEntry) : Prop :=
  Snapshots.Pairwise (fun a b => a.Snapshot ≠ b.Snapshot)

instance (Snapshots : List FFMODSnapshotEntry) : Decidable (UniqueDescriptors Snapshots) := by
  unfold UniqueDescriptors; infer_instance

/-- The blend loop read as one pass over the list: every entry gets its intensity pushed
once, in order; an entry that is not the selected one starts a down-ramp when its target
is non-zero, and is dropped (stopped and released) when its target is zero and its
intensity is exactly zero. `BlendLoop_eq_BlendList` shows that the index loop computes
this. -/
def BlendList (NewSnapshot : Option Nat) (CurrentTime : ℚ) :
    List FFMODSnapshotEntry → List FFMODSnapshotEntry × List EngineOp
  | [] => ([], [])
  | e :: Rest =>
    let Next := BlendList NewSnapshot CurrentTime Rest
    let SetIntensity := EngineOp.setParameterValue e.Instance (100 * e.CurrentIntensity CurrentTime)
    if e.Snapshot ≠ NewSnapshot then
      if e.FadeIntensityEnd ≠ 0 then
        (e.FadeTo CurrentTime 0 e.FadeDuration :: Next.1, SetIntensity :: Next.2)
      else if e.CurrentIntensity CurrentTime = 0 then
        (Next.1, SetIntensity :: EngineOp.stop e.Instance :: EngineOp.release e.Instance :: Next.2)
      else
        (e :: Next.1, SetIntensity :: Next.2)
    else
      (e :: Next.1, SetIntensity :: Next.2)

/-- The pointer `BestVolume` that `FinishSetListenerPosition(NumListeners, _)` selects in
state `m` (the dominant volume of the tick). -/
def FFMODStudioModule.DominantVolume (m : FFMODStudioModule) (NumListeners : Int) :
    Option AAudioVolume :=
  let Count := FFMODStudioModule.ShrinkListenerCount m.ListenerCount NumListeners
  FFMODStudioModule.SelectBestVolume (FFMODStudioModule.UpdateInterior m.Listeners Count) Count

/-! ### The blend loop as the specification words it -/

/-- Specification of the per-entry blend step, following the spec: push the intensity
times 100; for an entry that is not the selected one, start a down-ramp when the target is
non-zero, else drop the entry (stop, release) when its intensity is exactly 0. The result
is the surviving entry, if any, and the engine calls made. -/
def BlendEntrySpec (NewSnapshot : Option Nat) (CurrentTime : ℚ) (e : FFMODSnapshotEntry) :
    Option FFMODSnapshotEntry × List EngineOp :=
  let Push := EngineOp.setParameterValue e.Instance (100 * e.CurrentIntensity CurrentTime)
  if e.Snapshot = NewSnapshot then (some e, [Push])
  else if e.FadeIntensityEnd ≠ 0 then (some (e.FadeTo CurrentTime 0 e.FadeDuration), [Push])
  else if e.CurrentIntensity CurrentTime = 0 then
    (none, [Push, EngineOp.stop e.Instance, EngineOp.release e.Instance])
  else (some e, [Push])

/-- Specification of the blend pass, following the spec: the per-entry step applied to
each entry exactly once, in order; the survivors keep their relative order and the engine
calls are made in entry order. -/
def BlendSpec (NewSnapshot : Option Nat) (CurrentTime : ℚ)
    (Snapshots : List FFMODSnapshotEntry) : List FFMODSnapshotEntry × List EngineOp :=
  (Snapshots.filterMap (fun e => (BlendEntrySpec NewSnapshot CurrentTime e).1),
    (Snapshots.map (fun e => (BlendEntrySpec NewSnapshot CurrentTime e).2)).flatten)

/-- The intensity pushes among a list of engine calls: instance and value of every
`setParameterValue`, in order. -/
def IntensityPushes (Ops : List EngineOp) : List (Option Nat × ℚ) :=
  Ops.filterMap (fun Op =>
    match Op with
    | EngineOp.setParameterValue Instance Value => some (Instance, Value)
    | _ => none)

/-! ## Concrete states used to evaluate the code -/

/-- An audio volume of priority 5 that asks for the snapshot reverb 7 with blend volume
0.8 and fade time 2 s. -/
def ExampleVolume : AAudioVolume :=
  { Priority := 5
    Settings :=
      { bApplyReverb := true, ReverbEffect := some (UReverbEffect.SnapshotReverb 7),
        Volume := 4 / 5, FadeTime := 2 } }

/-- The freshly constructed module with a runtime studio system (after
`SetInPIE(true, false)`), one active listener. -/
def RunningModule : FFMODStudioModule :=
  { FFMODStudioModule.new with StudioSystemRuntime := true, bIsInPIE := true }

/-- The running module whose listener 0 stands in `ExampleVolume`. -/
def RunningModuleInVolume : FFMODStudioModule :=
  { RunningModule with
    Listeners :=
      RunningModule.Listeners.set 0 { FFMODListener.new with Volume := some ExampleVolume } }

/-- A studio system in which no snapshot GUID resolves to an event description. -/
def StudioWithoutEvents : StudioSystem :=
  { getEventByID := fun _ => none, createInstance := fun _ => none }

/-- A world without audio volumes. -/
def EmptyWorld : UWorld :=
  { GetAudioSettings := fun _ => (none, ⟨[]⟩) }

/-- A transform that places a listener at `(1, 0, 0)`. -/
def TransformAtX1 : FTransform :=
  { FTransform.Identity with Translation := ⟨1, 0, 0⟩ }

/-- An entry of descriptor 3 that has faded out: target 0, fade finished at time 1. -/
def FadedOutEntry : FFMODSnapshotEntry :=
  { Snapshot := some 3, Instance := some 30, StartTime := 0, FadeDuration := 1,
    FadeIntensityStart := 1, FadeIntensityEnd := 0 }

/-- The running module holding only `FadedOutEntry`. -/
def RunningModuleFadedOut : FFMODStudioModule :=
  { RunningModule with ReverbSnapshots := [FadedOutEntry] }

/-- A studio system that resolves every snapshot `s` to the event description `s` and
creates the instance `s + 100` from it. -/
def StudioWithEvents : StudioSystem :=
  { getEventByID := fun s => some s, createInstance := fun d => some (d + 100) }

/-- An entry of descriptor 3 that holds its target 0.8 (fade finished at time 2). -/
def HoldingEntry : FFMODSnapshotEntry :=
  { Snapshot := some 3, Instance := some 103, StartTime := 0, FadeDuration := 2,
    FadeIntensityStart := 0, FadeIntensityEnd := 4 / 5 }

/-- The running module, listener 0 in `ExampleVolume` (snapshot 7), holding only
`HoldingEntry` (snapshot 3). -/
def RunningModuleSuperseded : FFMODStudioModule :=
  { RunningModuleInVolume with ReverbSnapshots := [HoldingEntry] }

/-- An entry of descriptor 7 that ramps from 0 to 0.8 over 2 s from time 0. -/
def RampingEntry : FFMODSnapshotEntry :=
  { Snapshot := some 7, Instance := some 107, StartTime := 0, FadeDuration := 2,
    FadeIntensityStart := 0, FadeIntensityEnd := 4 / 5 }

/-- The running module, listener 0 in `ExampleVolume`, holding only `RampingEntry`. -/
def RunningModuleRamping : FFMODStudioModule :=
  { RunningModuleInVolume with ReverbSnapshots := [RampingEntry] }

/-- An audio volume of priority 5 that asks for the snapshot reverb 7 with blend volume 0
and fade time 2 s. -/
def SilentVolume : AAudioVolume :=
  { Priority := 5
    Settings :=
      { bApplyReverb := true, ReverbEffect := some (UReverbEffect.SnapshotReverb 7),
        Volume := 0, FadeTime := 2 } }

/-- The entry of descriptor 7 as a tick at time 0 in `SilentVolume` creates it: faded to
the target 0 over 2 s from time 0. -/
def IdleEntry : FFMODSnapshotEntry :=
  { Snapshot := some 7, Instance := some 107, StartTime := 0, FadeDuration := 2,
    FadeIntensityStart := 0, FadeIntensityEnd := 0 }

/-- The running module, listener 0 in `SilentVolume`, holding only `IdleEntry`. -/
def RunningModuleSilent : FFMODStudioModule :=
  { RunningModule with
    Listeners :=
      RunningModule.Listeners.set 0 { FFMODListener.new with Volume := some SilentVolume }
    ReverbSnapshots := [IdleEntry] }

/-- A transform that places a listener at `(X, 0, 0)`. -/
def TransformAtX (X : ℚ) : FTransform :=
  { FTransform.Identity with Translation := ⟨X, 0, 0⟩ }

/-- A default listener placed at `(X, 0, 0)`. -/
def ListenerAtX (X : ℚ) : FFMODListener :=
  { FFMODListener.new with Transform := TransformAtX X }

/-- The running module with three active listeners, at `(4, 0, 0)`, `(1, 0, 0)` and
`(-1, 0, 0)`. -/
def ThreeListenerModule : FFMODStudioModule :=
  { RunningModule with
    ListenerCount := 3
    Listeners :=
      [ListenerAtX 4, ListenerAtX 1, ListenerAtX (-1), FFMODListener.new, FFMODListener.new,
        FFMODListener.new, FFMODListener.new, FFMODListener.new] }

/-- The calls that lead from the constructed module to `ThreeListenerModule`. -/
def ThreeListenerCalls : List ModuleCall :=
  [ModuleCall.SetInPIE true false,
    ModuleCall.SetListenerPosition 0 EmptyWorld (TransformAtX 4) 0,
    ModuleCall.SetListenerPosition 1 EmptyWorld (TransformAtX 1) 0,
    ModuleCall.SetListenerPosition 2 EmptyWorld (TransformAtX (-1)) 0,
    ModuleCall.SetListenerPosition 1 EmptyWorld (TransformAtX 1) 0,
    ModuleCall.SetListenerPosition 2 EmptyWorld (TransformAtX (-1)) 0]

/-- An entry of descriptor 4 that has faded out: target 0, fade finished at time 1. -/
def FadedOutEntry4 : FFMODSnapshotEntry :=
  { Snapshot := some 4, Instance := some 104, StartTime := 0, FadeDuration := 1,
    FadeIntensityStart := 1, FadeIntensityEnd := 0 }

/-- The running module, listener 0 in `ExampleVolume` (snapshot 7), holding `HoldingEntry`
(snapshot 3) and `FadedOutEntry4` (snapshot 4). -/
def RunningModuleCrowded : FFMODStudioModule :=
  { RunningModuleInVolume with ReverbSnapshots := [HoldingEntry, FadedOutEntry4] }

/-- A world whose only audio volume, `ExampleVolume`, contains every point. -/
def WorldWithExampleVolume : UWorld :=
  { GetAudioSettings := fun _ => (some ExampleVolume, ⟨[]⟩) }

/-- A session: enter PIE, stand in `ExampleVolume` for a tick at time 0, leave it for a tick
at time 1, re-enter it for a tick at time 2. -/
def CrossFadeCalls : List ModuleCall :=
  [ModuleCall.SetInPIE true false,
    ModuleCall.SetListenerPosition 0 WorldWithExampleVolume TransformAtX1 0,
    ModuleCall.FinishSetListenerPosition StudioWithEvents 0 1 0,
    ModuleCall.SetListenerPosition 0 EmptyWorld TransformAtX1 1,
    ModuleCall.FinishSetListenerPosition StudioWithEvents 1 1 1,
    ModuleCall.SetListenerPosition 0 WorldWithExampleVolume TransformAtX1 1,
    ModuleCall.FinishSetListenerPosition StudioWithEvents 2 1 1]

/-! ## Fade arithmetic -/

namespace FFMODSnapshotEntry

/-- Whenever the interpolating branch is taken at a time not before `StartTime`, the
divisor `FadeDuration` is positive. -/
theorem CurrentIntensity_divisor_pos (e : FFMODSnapshotEntry) (t : ℚ)
    (hstart : e.StartTime ≤ t) (hbranch : ¬ e.StartTime + e.FadeDuration ≤ t) :
    0 < e.FadeDuration := by
  by_contra hneg
  exact hbranch (by linarith)

theorem FadeTo_Snapshot (e : FFMODSnapshotEntry) (t T D : ℚ) :
    (e.FadeTo t T D).Snapshot = e.Snapshot := rfl

theorem FadeTo_Instance (e : FFMODSnapshotEntry) (t T D : ℚ) :
    (e.FadeTo t T D).Instance = e.Instance := rfl

/-- On `[StartTime, StartTime + FadeDuration]` with a positive duration, both branches of
`CurrentIntensity` agree with the linear interpolation. -/
theorem CurrentIntensity_eq_Lerp (e : FFMODSnapshotEntry) (t : ℚ) (hD : 0 < e.FadeDuration)
    (hhi : t ≤ e.StartTime + e.FadeDuration) :
    e.CurrentIntensity t =
      Lerp e.FadeIntensityStart e.FadeIntensityEnd ((t - e.StartTime) / e.FadeDuration) := by
  unfold CurrentIntensity
  split_ifs with hle
  · have ht : t = e.StartTime + e.FadeDuration := le_antisymm hhi hle
    have hne : e.FadeDuration ≠ 0 := ne_of_gt hD
    have hone : (t - e.StartTime) / e.FadeDuration = 1 := by
      rw [ht]; field_simp
    rw [hone]; simp [Lerp]
  · rfl

/-- The interpolation factor is monotone in time and stays in `[0, 1]` on the fade window. -/
theorem factor_bounds (e : FFMODSnapshotEntry) (t1 t2 : ℚ) (hD : 0 < e.FadeDuration)
    (h1 : e.StartTime ≤ t1) (h12 : t1 ≤ t2) (h2 : t2 ≤ e.StartTime + e.FadeDuration) :
    0 ≤ (t1 - e.StartTime) / e.FadeDuration ∧
      (t1 - e.StartTime) / e.FadeDuration ≤ (t2 - e.StartTime) / e.FadeDuration ∧
      (t2 - e.StartTime) / e.FadeDuration ≤ 1 := by
  refine ⟨div_nonneg (by linarith) (le_of_lt hD), ?_, ?_⟩
  · exact div_le_div_of_nonneg_right (by linarith) (le_of_lt hD)
  · rw [div_le_one hD]; linarith

/-- The first branch of `CurrentIntensity`. -/
theorem CurrentIntensity_of_le (e : FFMODSnapshotEntry) (t : ℚ)
    (h : e.StartTime + e.FadeDuration ≤ t) : e.CurrentIntensity t = e.FadeIntensityEnd := by
  unfold CurrentIntensity
  rw [if_pos h]

/-- C1: for every fade state and every query time `t` with
`StartTime + FadeDuration ≤ t`, `CurrentIntensity` at `t` is exactly `FadeIntensityEnd`. -/
theorem CurrentIntensity_after_fade (e : FFMODSnapshotEntry) (t : ℚ)
    (h : t ≥ e.StartTime + e.FadeDuration) : e.CurrentIntensity t = e.FadeIntensityEnd :=
  CurrentIntensity_of_le e t h

theorem CurrentIntensity_after_fade_witness :
    (5 : ℚ) ≥ 0 + 2 ∧
      (FFMODSnapshotEntry.mk (some 1) (some 1) 0 2 0 (4 / 5)).CurrentIntensity 5 = 4 / 5 :=
  ⟨by norm_num,
    CurrentIntensity_after_fade (FFMODSnapshotEntry.mk (some 1) (some 1) 0 2 0 (4 / 5)) 5
      (by norm_num)⟩

/-- C9: for a fade state with `FadeDuration ≥ 0` and times `t1 ≤ t2` inside
`[StartTime, StartTime + FadeDuration]`, `CurrentIntensity` moves monotonically from the
start value to the end value: upwards when `FadeIntensityStart ≤ FadeIntensityEnd`,
downwards when `FadeIntensityStart ≥ FadeIntensityEnd`. -/
theorem CurrentIntensity_monotone (e : FFMODSnapshotEntry) (t1 t2 : ℚ)
    (hD : 0 ≤ e.FadeDuration) (h1 : e.StartTime ≤ t1) (h12 : t1 ≤ t2)
    (h2 : t2 ≤ e.StartTime + e.FadeDuration) :
    (e.FadeIntensityStart ≤ e.FadeIntensityEnd →
        e.FadeIntensityStart ≤ e.CurrentIntensity t1 ∧
          e.CurrentIntensity t1 ≤ e.CurrentIntensity t2 ∧
          e.CurrentIntensity t2 ≤ e.FadeIntensityEnd) ∧
      (e.FadeIntensityEnd ≤ e.FadeIntensityStart →
        e.FadeIntensityStart ≥ e.CurrentIntensity t1 ∧
          e.CurrentIntensity t1 ≥ e.CurrentIntensity t2 ∧
          e.CurrentIntensity t2 ≥ e.FadeIntensityEnd) := by
  rcases eq_or_lt_of_le hD with hzero | hpos
  · have ht1 : e.StartTime + e.FadeDuration ≤ t1 := by linarith
    have ht2 : e.StartTime + e.FadeDuration ≤ t2 := by linarith
    rw [CurrentIntensity_of_le e t1 ht1, CurrentIntensity_of_le e t2 ht2]
    exact ⟨fun h => ⟨h, le_refl _, le_refl _⟩, fun h => ⟨h, le_refl _, le_refl _⟩⟩
  · obtain ⟨f0, f12, f1⟩ := factor_bounds e t1 t2 hpos h1 h12 h2
    rw [CurrentIntensity_eq_Lerp e t1 hpos (by linarith), CurrentIntensity_eq_Lerp e t2 hpos h2]
    unfold Lerp
    constructor
    · intro hle
      have hd : 0 ≤ e.FadeIntensityEnd - e.FadeIntensityStart := by linarith
      have hm := mul_le_mul_of_nonneg_right f12 hd
      have h0 := mul_nonneg f0 hd
      have hu := mul_le_mul_of_nonneg_right f1 hd
      refine ⟨by linarith, by linarith, by linarith⟩
    · intro hle
      have hd : 0 ≤ e.FadeIntensityStart - e.FadeIntensityEnd := by linarith
      have hm := mul_le_mul_of_nonneg_right f12 hd
      have h0 := mul_nonneg f0 hd
      have hu := mul_le_mul_of_nonneg_right f1 hd
      refine ⟨by nlinarith, by nlinarith, by nlinarith⟩

theorem CurrentIntensity_monotone_witness :
    ((0 : ℚ) ≤ 2 ∧ (0 : ℚ) ≤ 1 ∧ (1 : ℚ) ≤ 2 ∧ (2 : ℚ) ≤ 0 + 2) ∧
      (0 : ℚ) ≤ (FFMODSnapshotEntry.mk (some 1) (some 1) 0 2 0 (4 / 5)).CurrentIntensity 1 ∧
      (FFMODSnapshotEntry.mk (some 1) (some 1) 0 2 0 (4 / 5)).CurrentIntensity 1 ≤
        (FFMODSnapshotEntry.mk (some 1) (some 1) 0 2 0 (4 / 5)).CurrentIntensity 2 ∧
      (FFMODSnapshotEntry.mk (some 1) (some 1) 0 2 0 (4 / 5)).CurrentIntensity 2 ≤ 4 / 5 :=
  ⟨by norm_num,
    (CurrentIntensity_monotone (FFMODSnapshotEntry.mk (some 1) (some 1) 0 2 0 (4 / 5)) 1 2
      (by norm_num) (by norm_num) (by norm_num) (by norm_num)).1 (by norm_num)⟩

end FFMODSnapshotEntry

/-! ## The blend loop -/

namespace FFMODStudioModule

/-- The index loop started at the end of a prefix `Pre` leaves the prefix alone and makes
one pass over the rest. -/
theorem BlendLoop_append (NewSnapshot : Option Nat) (t : ℚ) (Suf : List FFMODSnapshotEntry) :
    ∀ Pre : List FFMODSnapshotEntry,
      BlendLoop NewSnapshot t Pre.length (Pre ++ Suf) =
        (Pre ++ (BlendList NewSnapshot t Suf).1, (BlendList NewSnapshot t Suf).2) := by
  induction Suf with
  | nil =>
    intro Pre
    rw [BlendLoop]
    simp [BlendList]
  | cons e Rest ih =>
    intro Pre
    have hlt : Pre.length < (Pre ++ e :: Rest).length := by simp
    have hget : (Pre ++ e :: Rest)[Pre.length] = e := by
      rw [List.getElem_append_right (le_refl _)]
      simp
    have hset : ∀ v : FFMODSnapshotEntry,
        (Pre ++ e :: Rest).set Pre.length v = (Pre ++ [v]) ++ Rest := by
      intro v
      rw [List.set_append_right _ _ (le_refl _)]
      simp
    have herase : (Pre ++ e :: Rest).eraseIdx Pre.length = Pre ++ Rest := by
      rw [List.eraseIdx_append_of_length_le (le_refl _)]
      simp
    have hnext : BlendLoop NewSnapshot t (Pre.length + 1) (Pre ++ e :: Rest) =
        (Pre ++ e :: (BlendList NewSnapshot t Rest).1, (BlendList NewSnapshot t Rest).2) := by
      have h := ih (Pre ++ [e])
      simpa using h
    rw [BlendLoop]
    simp only [hlt, dite_true, hget, BlendList]
    by_cases hsel : e.Snapshot = NewSnapshot
    · simp only [hsel, ne_eq, not_true_eq_false, if_false]
      rw [hnext]
    · simp only [ne_eq, hsel, not_false_eq_true, if_true]
      by_cases hend : e.FadeIntensityEnd = 0
      · simp only [hend, not_true_eq_false, if_false]
        by_cases hzero : e.CurrentIntensity t = 0
        · simp only [hzero, if_true]
          rw [herase, ih Pre]
        · simp only [hzero, if_false]
          rw [hnext]
      · simp only [hend, not_false_eq_true, if_true]
        rw [hset]
        have h := ih (Pre ++ [e.FadeTo t 0 e.FadeDuration])
        simp only [List.length_append, List.length_singleton] at h
        rw [h]
        simp

/-- The index loop from index 0 is one pass over the whole list. -/
theorem BlendLoop_eq_BlendList (NewSnapshot : Option Nat) (t : ℚ)
    (Snapshots : List FFMODSnapshotEntry) :
    BlendLoop NewSnapshot t 0 Snapshots = BlendList NewSnapshot t Snapshots := by
  have h := BlendLoop_append NewSnapshot t Snapshots []
  simpa using h

/-- One pass of the blend loop only drops entries: the descriptors that remain are a
sublist of the descriptors before. -/
theorem BlendList_descriptors_sublist (NewSnapshot : Option Nat) (t : ℚ)
    (Snapshots : List FFMODSnapshotEntry) :
    ((BlendList NewSnapshot t Snapshots).1.map (fun e => e.Snapshot)).Sublist
      (Snapshots.map (fun e => e.Snapshot)) := by
  induction Snapshots with
  | nil => simp [BlendList]
  | cons e Rest ih =>
    simp only [BlendList]
    split_ifs
    · simpa [FFMODSnapshotEntry.FadeTo] using ih.cons₂ e.Snapshot
    · simpa using ih.cons e.Snapshot
    · simpa using ih.cons₂ e.Snapshot
    · simpa using ih.cons₂ e.Snapshot

/-- An entry of the selected descriptor survives the blend loop unchanged. -/
theorem BlendList_keeps_selected (NewSnapshot : Option Nat) (t : ℚ)
    (Snapshots : List FFMODSnapshotEntry) (e : FFMODSnapshotEntry) (he : e ∈ Snapshots)
    (hsel : e.Snapshot = NewSnapshot) : e ∈ (BlendList NewSnapshot t Snapshots).1 := by
  induction Snapshots with
  | nil => simp at he
  | cons a Rest ih =>
    simp only [BlendList]
    rcases List.mem_cons.mp he with rfl | hrest
    · simp [hsel]
    · have h := ih hrest
      split_ifs <;> simp [h]

/-- An entry whose descriptor has no entry left after the blend loop was not selected, had
target zero and intensity exactly zero. -/
theorem BlendList_dropped (NewSnapshot : Option Nat) (t : ℚ)
    (Snapshots : List FFMODSnapshotEntry) (e : FFMODSnapshotEntry) (he : e ∈ Snapshots) :
    (∃ k ∈ (BlendList NewSnapshot t Snapshots).1, k.Snapshot = e.Snapshot) ∨
      (e.Snapshot ≠ NewSnapshot ∧ e.FadeIntensityEnd = 0 ∧ e.CurrentIntensity t = 0) := by
  induction Snapshots with
  | nil => simp at he
  | cons a Rest ih =>
    rcases List.mem_cons.mp he with rfl | hrest
    · simp only [BlendList]
      by_cases hsel : e.Snapshot = NewSnapshot
      · left
        exact ⟨e, by simp [hsel], rfl⟩
      · by_cases hend : e.FadeIntensityEnd = 0
        · by_cases hzero : e.CurrentIntensity t = 0
          · right
            exact ⟨hsel, hend, hzero⟩
          · left
            exact ⟨e, by simp [hsel, hend, hzero], rfl⟩
        · left
          exact ⟨e.FadeTo t 0 e.FadeDuration, by simp [hsel, hend], rfl⟩
    · rcases ih hrest with ⟨k, hk, hks⟩ | hgone
      · left
        refine ⟨k, ?_, hks⟩
        simp only [BlendList]
        split_ifs <;> simp [hk]
      · right
        exact hgone

/-- The entry list keeps its descriptors, position by position, under "fade up". -/
theorem FadeUp_descriptors (Snapshots : List FFMODSnapshotEntry) (i : Nat) (t : ℚ)
    (Best : AAudioVolume) :
    (FadeUp Snapshots i t Best).map (fun e => e.Snapshot) =
      Snapshots.map (fun e => e.Snapshot) := by
  unfold FadeUp
  cases hget : Snapshots[i]? with
  | none => rfl
  | some e =>
    simp only
    split_ifs
    · obtain ⟨hi, hval⟩ := List.getElem?_eq_some.mp hget
      apply List.ext_getElem
      · simp
      · intro j h1 h2
        by_cases hij : i = j
        · subst hij
          simp [FFMODSnapshotEntry.FadeTo, hval]
        · simp [List.getElem_set_ne hij]
    · rfl

/-- Under "fade up" an entry either stays as it is, or it is the entry at the index that
is faded up, and the faded version of it is in the list. -/
theorem FadeUp_mem (Snapshots : List FFMODSnapshotEntry) (i : Nat) (t : ℚ)
    (Best : AAudioVolume) (e : FFMODSnapshotEntry) (he : e ∈ Snapshots) :
    e ∈ FadeUp Snapshots i t Best ∨
      (Snapshots[i]? = some e ∧
        e.FadeTo t Best.Settings.Volume Best.Settings.FadeTime ∈ FadeUp Snapshots i t Best) := by
  unfold FadeUp
  cases hget : Snapshots[i]? with
  | none => left; exact he
  | some a =>
    simp only
    split_ifs with hend
    · obtain ⟨hi, hval⟩ := List.getElem?_eq_some.mp hget
      obtain ⟨j, hj, hje⟩ := List.mem_iff_getElem.mp he
      by_cases hij : i = j
      · right
        subst hij
        have hae : a = e := by rw [← hval, hje]
        subst hae
        exact ⟨rfl, List.mem_set _ _ hi _⟩
      · left
        refine List.mem_iff_getElem.mpr ⟨j, by simpa using hj, ?_⟩
        rw [List.getElem_set_ne hij]
        exact hje
    · left; exact he

/-- When the search for an old entry fails, no entry references the snapshot. -/
theorem StealOldEntry_none (NewSnapshot : Nat) (Snapshots : List FFMODSnapshotEntry) :
    ∀ Index : Nat, StealOldEntry NewSnapshot Snapshots Index = none →
      ∀ e ∈ Snapshots, e.Snapshot ≠ some NewSnapshot := by
  induction Snapshots with
  | nil => intro _ _ e he; simp at he
  | cons a Rest ih =>
    intro Index h e he
    simp only [StealOldEntry] at h
    split_ifs at h with ha
    rcases List.mem_cons.mp he with rfl | hrest
    · exact ha
    · exact ih (Index + 1) h e hrest

/-- When the search for an old entry succeeds, the entry found references the snapshot
and no earlier entry does. -/
theorem StealOldEntry_some (NewSnapshot : Nat) (Snapshots : List FFMODSnapshotEntry) :
    ∀ Index Found : Nat, StealOldEntry NewSnapshot Snapshots Index = some Found →
      ∃ j e, Found = Index + j ∧ Snapshots[j]? = some e ∧ e.Snapshot = some NewSnapshot ∧
        ∀ k a, k < j → Snapshots[k]? = some a → a.Snapshot ≠ some NewSnapshot := by
  induction Snapshots with
  | nil => intro _ _ h; simp [StealOldEntry] at h
  | cons a Rest ih =>
    intro Index Found h
    simp only [StealOldEntry] at h
    split_ifs at h with ha
    · refine ⟨0, a, ?_, by simp, ha, ?_⟩
      · simpa using (Option.some.inj h).symm
      · intro k _ hk; omega
    · obtain ⟨j, e, hF, hget, hsnap, hearlier⟩ := ih (Index + 1) Found h
      refine ⟨j + 1, e, by omega, by simpa using hget, hsnap, ?_⟩
      intro k b hk hb
      cases k with
      | zero =>
        simp at hb
        subst hb
        exact ha
      | succ k =>
        exact hearlier k b (by omega) (by simpa using hb)

/-- Uniqueness of descriptors is duplicate-freeness of the list of descriptors. -/
theorem UniqueDescriptors_iff_nodup (Snapshots : List FFMODSnapshotEntry) :
    UniqueDescriptors Snapshots ↔ (Snapshots.map (fun e => e.Snapshot)).Nodup := by
  unfold UniqueDescriptors List.Nodup
  rw [List.pairwise_map]

/-- Find-or-create keeps the descriptors, or appends the selected descriptor when no
entry references it. -/
theorem SelectEntry_descriptors (Studio : StudioSystem) (t : ℚ)
    (BestVolume : Option AAudioVolume) (NewSnapshot : Option Nat)
    (Snapshots : List FFMODSnapshotEntry) :
    (SelectEntry Studio t BestVolume NewSnapshot Snapshots).1.map (fun e => e.Snapshot) =
        Snapshots.map (fun e => e.Snapshot) ∨
      ((∀ e ∈ Snapshots, e.Snapshot ≠ NewSnapshot) ∧
        (SelectEntry Studio t BestVolume NewSnapshot Snapshots).1.map (fun e => e.Snapshot) =
          Snapshots.map (fun e => e.Snapshot) ++ [NewSnapshot]) := by
  unfold SelectEntry
  cases NewSnapshot with
  | none => left; rfl
  | some Snapshot =>
    cases BestVolume with
    | none => left; rfl
    | some Best =>
      simp only
      cases hsteal : StealOldEntry Snapshot Snapshots 0 with
      | some Index =>
        left
        simp only
        exact FadeUp_descriptors Snapshots Index t Best
      | none =>
        right
        refine ⟨StealOldEntry_none Snapshot Snapshots 0 hsteal, ?_⟩
        simp only
        rw [FadeUp_descriptors]
        simp [FFMODSnapshotEntry.new]

/-- Find-or-create keeps uniqueness of descriptors. -/
theorem SelectEntry_unique (Studio : StudioSystem) (t : ℚ)
    (BestVolume : Option AAudioVolume) (NewSnapshot : Option Nat)
    (Snapshots : List FFMODSnapshotEntry) (h : UniqueDescriptors Snapshots) :
    UniqueDescriptors (SelectEntry Studio t BestVolume NewSnapshot Snapshots).1 := by
  rw [UniqueDescriptors_iff_nodup] at h ⊢
  rcases SelectEntry_descriptors Studio t BestVolume NewSnapshot Snapshots with heq | ⟨hnew, heq⟩
  · rw [heq]; exact h
  · rw [heq]
    refine List.Nodup.append h (List.nodup_singleton _) ?_
    intro d hd1 hd2
    obtain ⟨e, he, hed⟩ := List.mem_map.mp hd1
    have hdn : d = NewSnapshot := by simpa using hd2
    exact hnew e he (hed.trans hdn)

/-- After find-or-create an old entry is still there unchanged, or it references the
selected descriptor and an entry of the selected descriptor is there. -/
theorem SelectEntry_mem (Studio : StudioSystem) (t : ℚ)
    (BestVolume : Option AAudioVolume) (NewSnapshot : Option Nat)
    (Snapshots : List FFMODSnapshotEntry) (e : FFMODSnapshotEntry) (he : e ∈ Snapshots) :
    e ∈ (SelectEntry Studio t BestVolume NewSnapshot Snapshots).1 ∨
      (e.Snapshot = NewSnapshot ∧
        ∃ k ∈ (SelectEntry Studio t BestVolume NewSnapshot Snapshots).1,
          k.Snapshot = NewSnapshot) := by
  unfold SelectEntry
  cases NewSnapshot with
  | none => left; exact he
  | some Snapshot =>
    cases BestVolume with
    | none => left; exact he
    | some Best =>
      simp only
      cases hsteal : StealOldEntry Snapshot Snapshots 0 with
      | some Index =>
        simp only
        rcases FadeUp_mem Snapshots Index t Best e he with hin | ⟨hget, hfaded⟩
        · left; exact hin
        · right
          obtain ⟨j, a, hF, hja, hsnap, _⟩ := StealOldEntry_some Snapshot Snapshots 0 Index hsteal
          have hIdx : Index = j := by omega
          subst hIdx
          have hae : a = e := by
            rw [hget] at hja
            exact (Option.some.inj hja).symm
          subst hae
          exact ⟨hsnap, _, hfaded, hsnap⟩
      | none =>
        simp only
        left
        have hold := StealOldEntry_none Snapshot Snapshots 0 hsteal
        have he2 : e ∈ Snapshots ++ [FFMODSnapshotEntry.new (some Snapshot)
            (CreateNewInstance Studio Snapshot).1] := List.mem_append_left _ he
        rcases FadeUp_mem _ Snapshots.length t Best e he2 with hin | ⟨hget, _⟩
        · exact hin
        · exfalso
          rw [List.getElem?_append_right (le_refl _)] at hget
          simp at hget
          exact hold e he (by rw [← hget]; rfl)

/-- The entry list after `FinishSetListenerPosition`: unchanged without a runtime studio
system, otherwise find-or-create followed by one pass of the blend loop. -/
theorem FinishSetListenerPosition_ReverbSnapshots (m : FFMODStudioModule)
    (Studio : StudioSystem) (t : ℚ) (NumListeners : Int) (DeltaSeconds : ℚ) :
    (m.FinishSetListenerPosition Studio t NumListeners DeltaSeconds).1.ReverbSnapshots =
      if m.StudioSystemRuntime = false then m.ReverbSnapshots
      else
        (BlendList (m.SelectedSnapshot NumListeners) t
          (SelectEntry Studio t
            (SelectBestVolume
              (UpdateInterior m.Listeners (ShrinkListenerCount m.ListenerCount NumListeners))
              (ShrinkListenerCount m.ListenerCount NumListeners))
            (m.SelectedSnapshot NumListeners) m.ReverbSnapshots).1).1 := by
  unfold FinishSetListenerPosition SelectedSnapshot
  by_cases hsys : m.StudioSystemRuntime = false
  · rw [if_pos hsys, if_pos hsys]
  · rw [if_neg hsys, if_neg hsys]
    simp only [BlendLoop_eq_BlendList]

/-- The blend step of one tick keeps uniqueness of descriptors. -/
theorem FinishSetListenerPosition_keeps_unique (m : FFMODStudioModule) (Studio : StudioSystem)
    (t : ℚ) (NumListeners : Int) (DeltaSeconds : ℚ)
    (h : UniqueDescriptors m.ReverbSnapshots) :
    UniqueDescriptors (m.FinishSetListenerPosition Studio t NumListeners DeltaSeconds).1.ReverbSnapshots := by
  rw [FinishSetListenerPosition_ReverbSnapshots]
  split_ifs with hsys
  · exact h
  · have hsel := SelectEntry_unique Studio t
      (SelectBestVolume (UpdateInterior m.Listeners (ShrinkListenerCount m.ListenerCount NumListeners))
        (ShrinkListenerCount m.ListenerCount NumListeners))
      (m.SelectedSnapshot NumListeners) m.ReverbSnapshots h
    rw [UniqueDescriptors_iff_nodup] at hsel ⊢
    exact List.Nodup.sublist (BlendList_descriptors_sublist _ _ _) hsel

/-- Every public call keeps uniqueness of descriptors. -/
theorem apply_keeps_unique (m : FFMODStudioModule) (c : ModuleCall)
    (h : UniqueDescriptors m.ReverbSnapshots) :
    UniqueDescriptors (ModuleCall.apply m c).ReverbSnapshots := by
  cases c with
  | SetListenerPosition i W T d =>
    simp only [ModuleCall.apply, SetListenerPosition]
    split_ifs <;> exact h
  | FinishSetListenerPosition S t n d =>
    exact FinishSetListenerPosition_keeps_unique m S t n d h
  | SetInPIE b s =>
    simp only [ModuleCall.apply, SetInPIE, ResetInterpolation]
    split_ifs
    · exact h
    · exact List.Pairwise.nil

/-- Any sequence of public calls keeps uniqueness of descriptors. -/
theorem RunCalls_keeps_unique (Calls : List ModuleCall) :
    ∀ m : FFMODStudioModule, UniqueDescriptors m.ReverbSnapshots →
      UniqueDescriptors (RunCalls m Calls).ReverbSnapshots := by
  induction Calls with
  | nil => intro m h; exact h
  | cons c Rest ih =>
    intro m h
    exact ih (ModuleCall.apply m c) (apply_keeps_unique m c h)

end FFMODStudioModule

/-- C3: if no two entries of `ReverbSnapshots` reference the same snapshot descriptor
before a call of `FinishSetListenerPosition`, none do after it; and from the freshly
constructed module, after any sequence of `SetListenerPosition`,
`FinishSetListenerPosition` and `SetInPIE` calls, at most one entry exists per
descriptor. -/
theorem unique_descriptor_invariant (m : FFMODStudioModule) (Studio : StudioSystem) (t : ℚ)
    (NumListeners : Int) (DeltaSeconds : ℚ) (Calls : List ModuleCall) :
    (UniqueDescriptors m.ReverbSnapshots →
        UniqueDescriptors
          (m.FinishSetListenerPosition Studio t NumListeners DeltaSeconds).1.ReverbSnapshots) ∧
      UniqueDescriptors (RunCalls FFMODStudioModule.new Calls).ReverbSnapshots :=
  ⟨FFMODStudioModule.FinishSetListenerPosition_keeps_unique m Studio t NumListeners DeltaSeconds,
    FFMODStudioModule.RunCalls_keeps_unique Calls FFMODStudioModule.new List.Pairwise.nil⟩

/-- C4: an entry that is in `ReverbSnapshots` before a call of `FinishSetListenerPosition`
and whose descriptor has no entry after it had `FadeIntensityEnd = 0` and
`CurrentIntensity` exactly 0 at the tick time, and its descriptor was not the selected
one; so an entry with a non-zero fade target at the start of the tick, or with the
selected descriptor, still has its entry after the tick. -/
theorem evicted_only_when_faded_out (m : FFMODStudioModule) (Studio : StudioSystem) (t : ℚ)
    (NumListeners : Int) (DeltaSeconds : ℚ) (e : FFMODSnapshotEntry)
    (he : e ∈ m.ReverbSnapshots) :
    ((∀ k ∈ (m.FinishSetListenerPosition Studio t NumListeners DeltaSeconds).1.ReverbSnapshots,
          k.Snapshot ≠ e.Snapshot) →
        e.FadeIntensityEnd = 0 ∧ e.CurrentIntensity t = 0 ∧
          e.Snapshot ≠ m.SelectedSnapshot NumListeners) ∧
      ((e.FadeIntensityEnd ≠ 0 ∨ e.Snapshot = m.SelectedSnapshot NumListeners) →
        ∃ k ∈ (m.FinishSetListenerPosition Studio t NumListeners DeltaSeconds).1.ReverbSnapshots,
          k.Snapshot = e.Snapshot) := by
  have key :
      (∃ k ∈ (m.FinishSetListenerPosition Studio t NumListeners DeltaSeconds).1.ReverbSnapshots,
          k.Snapshot = e.Snapshot) ∨
        (e.FadeIntensityEnd = 0 ∧ e.CurrentIntensity t = 0 ∧
          e.Snapshot ≠ m.SelectedSnapshot NumListeners) := by
    rw [FFMODStudioModule.FinishSetListenerPosition_ReverbSnapshots]
    split_ifs with hsys
    · left; exact ⟨e, he, rfl⟩
    · rcases FFMODStudioModule.SelectEntry_mem Studio t _ (m.SelectedSnapshot NumListeners)
          m.ReverbSnapshots e he with hin | ⟨hsel, k, hk, hksel⟩
      · rcases FFMODStudioModule.BlendList_dropped (m.SelectedSnapshot NumListeners) t _ e hin
          with hkept | ⟨hns, hend, hzero⟩
        · left; exact hkept
        · right; exact ⟨hend, hzero, hns⟩
      · left
        exact ⟨k, FFMODStudioModule.BlendList_keeps_selected _ t _ k hk hksel,
          hksel.trans hsel.symm⟩
  constructor
  · intro hgone
    rcases key with ⟨k, hk, hks⟩ | hfaded
    · exact absurd hks (hgone k hk)
    · exact hfaded
  · intro hlive
    rcases key with hkept | ⟨hend, _, hns⟩
    · exact hkept
    · rcases hlive with h1 | h2
      · exact absurd hend h1
      · exact absurd h2 hns

theorem unique_descriptor_invariant_witness :
    UniqueDescriptors RunningModuleCrowded.ReverbSnapshots ∧
      UniqueDescriptors
        (RunningModuleCrowded.FinishSetListenerPosition StudioWithEvents 1 1 0).1.ReverbSnapshots ∧
      UniqueDescriptors (RunCalls FFMODStudioModule.new CrossFadeCalls).ReverbSnapshots :=
  have h0 : UniqueDescriptors RunningModuleCrowded.ReverbSnapshots := by
    simp [UniqueDescriptors, RunningModuleCrowded, HoldingEntry, FadedOutEntry4]
  ⟨h0,
    (unique_descriptor_invariant RunningModuleCrowded StudioWithEvents 1 1 0 CrossFadeCalls).1 h0,
    (unique_descriptor_invariant RunningModuleCrowded StudioWithEvents 1 1 0 CrossFadeCalls).2⟩

/-- At time 1 the tick of `RunningModuleFadedOut` (no volume, nothing selected) removes its
only entry. -/
theorem RunningModuleFadedOut_tick :
    (RunningModuleFadedOut.FinishSetListenerPosition StudioWithoutEvents 1 1 0).1.ReverbSnapshots
      = [] := by
  rw [FFMODStudioModule.FinishSetListenerPosition_ReverbSnapshots]
  simp [RunningModuleFadedOut, RunningModule, FFMODStudioModule.new, MAX_LISTENERS,
    FFMODStudioModule.SelectedSnapshot, FFMODStudioModule.ShrinkListenerCount,
    FFMODStudioModule.UpdateInterior, FFMODStudioModule.SelectBestVolume,
    FFMODStudioModule.BestVolumeStep, FFMODStudioModule.SelectNewSnapshot,
    FFMODStudioModule.SelectEntry, BlendList, FadedOutEntry,
    FFMODSnapshotEntry.CurrentIntensity, FFMODListener.new,
    FFMODListener.UpdateCurrentInteriorSettings, List.range, List.range.loop]

theorem evicted_only_when_faded_out_witness :
    FadedOutEntry ∈ RunningModuleFadedOut.ReverbSnapshots ∧
      FadedOutEntry.FadeIntensityEnd = 0 ∧ FadedOutEntry.CurrentIntensity 1 = 0 ∧
      FadedOutEntry.Snapshot ≠ RunningModuleFadedOut.SelectedSnapshot 1 :=
  have hmem : FadedOutEntry ∈ RunningModuleFadedOut.ReverbSnapshots := by
    simp [RunningModuleFadedOut]
  ⟨hmem,
    (evicted_only_when_faded_out RunningModuleFadedOut StudioWithoutEvents 1 1 0 FadedOutEntry
      hmem).1 (by rw [RunningModuleFadedOut_tick]; simp)⟩

/-! ## Listener tracking -/

namespace FFMODStudioModule

/-- On the path that does not grow the listener count, `SetListenerPosition` stores the
supplied transform and the finite-difference velocity. -/
theorem SetListenerPosition_stored (m : FFMODStudioModule) (ListenerIndex : Nat)
    (World : UWorld) (T : FTransform) (DeltaSeconds : ℚ)
    (hsys : m.StudioSystemRuntime = true) (hmax : ListenerIndex < MAX_LISTENERS)
    (hlen : m.Listeners.length = MAX_LISTENERS)
    (hactive : (ListenerIndex : Int) < m.ListenerCount) :
    ((m.SetListenerPosition ListenerIndex World T DeltaSeconds).1.Listener ListenerIndex).Transform
        = T ∧
      ((m.SetListenerPosition ListenerIndex World T DeltaSeconds).1.Listener ListenerIndex).Velocity
        = if DeltaSeconds > 0 then
            (T.Translation.sub (m.Listener ListenerIndex).Transform.Translation).div DeltaSeconds
          else FVector.ZeroVector := by
  have hnot : ¬ (ListenerIndex : Int) ≥ m.ListenerCount := not_le.mpr hactive
  have hidx : ListenerIndex < m.Listeners.length := by rw [hlen]; exact hmax
  unfold SetListenerPosition
  rw [if_pos ⟨hsys, hmax⟩]
  simp only [hnot, if_false]
  simp [Listener, List.getD_eq_getElem?_getD, hidx, FFMODListener.ApplyInteriorSettings]

/-- The listener count after `FinishSetListenerPosition` with a runtime studio system. -/
theorem FinishSetListenerPosition_ListenerCount (m : FFMODStudioModule)
    (Studio : StudioSystem) (t : ℚ) (NumListeners : Int) (DeltaSeconds : ℚ)
    (hsys : m.StudioSystemRuntime = true) :
    (m.FinishSetListenerPosition Studio t NumListeners DeltaSeconds).1.ListenerCount =
      min (min NumListeners 1) m.ListenerCount := by
  unfold FinishSetListenerPosition
  have hne : ¬ m.StudioSystemRuntime = false := by simp [hsys]
  rw [if_neg hne]
  simp only [ShrinkListenerCount]
  split_ifs with hlt
  · exact (min_eq_left (le_of_lt hlt)).symm
  · exact (min_eq_right (not_lt.mp hlt)).symm

end FFMODStudioModule

/-- C5, the code at the failing input: with one active listener, `SetListenerPosition`
for listener 1 (the growing path) at position `(1, 0, 0)` and `DeltaSeconds = 1` leaves
listener 1 in the default state: the stored transform is not the supplied one and the
stored velocity is zero, not `(1, 0, 0)`. -/
theorem SetListenerPosition_growing_resets :
    (RunningModule.SetListenerPosition 1 EmptyWorld TransformAtX1 1).1.Listener 1
        = FFMODListener.new ∧
      FFMODListener.new.Transform ≠ TransformAtX1 ∧
      FFMODListener.new.Velocity ≠
        (TransformAtX1.Translation.sub (RunningModule.Listener 1).Transform.Translation).div 1 ∧
      (RunningModule.SetListenerPosition 1 EmptyWorld TransformAtX1 1).1.ListenerCount = 2 := by
  refine ⟨?_, ?_, ?_, ?_⟩
  · simp [FFMODStudioModule.SetListenerPosition, RunningModule, FFMODStudioModule.new,
      MAX_LISTENERS, FFMODStudioModule.Listener, FFMODListener.ApplyInteriorSettings, EmptyWorld]
  · simp [FFMODListener.new, TransformAtX1, FTransform.Identity, FVector.ZeroVector]
  · simp [FFMODListener.new, TransformAtX1, FTransform.Identity, FVector.ZeroVector,
      FVector.sub, FVector.div, RunningModule, FFMODStudioModule.new, MAX_LISTENERS,
      FFMODStudioModule.Listener]
  · simp [FFMODStudioModule.SetListenerPosition, RunningModule, FFMODStudioModule.new,
      MAX_LISTENERS]

/-- C6, the code at the failing input: with one active listener and a runtime studio
system, `FinishSetListenerPosition(0, _)` leaves `ListenerCount = 0`, and a request of
`-3` leaves `ListenerCount = -3`. -/
theorem FinishSetListenerPosition_drops_to_zero :
    RunningModule.ListenerCount = 1 ∧
      (RunningModule.FinishSetListenerPosition StudioWithoutEvents 0 0 0).1.ListenerCount = 0 ∧
      (RunningModule.FinishSetListenerPosition StudioWithoutEvents 0 (-3) 0).1.ListenerCount
        = -3 := by
  refine ⟨rfl, ?_, ?_⟩
  · rw [FFMODStudioModule.FinishSetListenerPosition_ListenerCount _ _ _ _ _ rfl]
    decide
  · rw [FFMODStudioModule.FinishSetListenerPosition_ListenerCount _ _ _ _ _ rfl]
    decide

/-- C10, the code at the failing input: when the selected snapshot 7 resolves to no event
description, the tick pushes an entry with a null instance and the blend loop of the same
tick calls `setParameterValue` on that null instance. -/
theorem blend_loop_uses_missing_instance :
    (RunningModuleInVolume.FinishSetListenerPosition StudioWithoutEvents 0 1 0).2
        = [EngineOp.setParameterValue none 0] ∧
      (RunningModuleInVolume.FinishSetListenerPosition StudioWithoutEvents 0 1 0).1.ReverbSnapshots
        = [{ Snapshot := some 7, Instance := none, StartTime := 0, FadeDuration := 2,
             FadeIntensityStart := 0, FadeIntensityEnd := 4 / 5 }] := by
  constructor <;>
  simp [FFMODStudioModule.FinishSetListenerPosition, FFMODStudioModule.BlendLoop_eq_BlendList,
    RunningModuleInVolume, RunningModule, FFMODStudioModule.new, MAX_LISTENERS,
    FFMODStudioModule.ShrinkListenerCount, FFMODStudioModule.UpdateInterior,
    FFMODStudioModule.SelectBestVolume, FFMODStudioModule.BestVolumeStep,
    FFMODStudioModule.SelectNewSnapshot, CastSnapshotReverb, ExampleVolume,
    FFMODStudioModule.SelectEntry, FFMODStudioModule.StealOldEntry,
    FFMODStudioModule.CreateNewInstance, StudioWithoutEvents, FFMODStudioModule.FadeUp, BlendList,
    FFMODSnapshotEntry.new, FFMODSnapshotEntry.FadeTo, FFMODSnapshotEntry.CurrentIntensity,
    FFMODListener.new, FFMODListener.UpdateCurrentInteriorSettings, List.range, List.range.loop,
    Lerp]

namespace FFMODStudioModule

/-- The loop of `GetNearestListener` after `n` iterations: for `n = 0` the initial pair,
otherwise the lowest index among the listeners `0 .. n - 1` of least squared distance,
together with that distance. -/
theorem NearestStep_fold (m : FFMODStudioModule) (Location : FVector) (n : Nat)
    (hfin : ∀ i < n,
      FVector.DistSquared Location (m.Listener i).Transform.Translation < FLT_MAX) :
    (n = 0 ∧ (List.range n).foldl (m.NearestStep Location) (FLT_MAX, 0) = (FLT_MAX, 0)) ∨
      (((List.range n).foldl (m.NearestStep Location) (FLT_MAX, 0)).2 < n ∧
        ((List.range n).foldl (m.NearestStep Location) (FLT_MAX, 0)).1 =
          FVector.DistSquared Location
            (m.Listener
              ((List.range n).foldl (m.NearestStep Location) (FLT_MAX, 0)).2).Transform.Translation ∧
        (∀ i < n, ((List.range n).foldl (m.NearestStep Location) (FLT_MAX, 0)).1 ≤
          FVector.DistSquared Location (m.Listener i).Transform.Translation) ∧
        (∀ i < ((List.range n).foldl (m.NearestStep Location) (FLT_MAX, 0)).2,
          ((List.range n).foldl (m.NearestStep Location) (FLT_MAX, 0)).1 <
            FVector.DistSquared Location (m.Listener i).Transform.Translation)) := by
  induction n with
  | zero => left; exact ⟨rfl, rfl⟩
  | succ n ih =>
    right
    have hprev := ih (fun i hi => hfin i (Nat.lt_succ_of_lt hi))
    rw [List.range_succ, List.foldl_append]
    simp only [List.foldl_cons, List.foldl_nil]
    generalize (List.range n).foldl (m.NearestStep Location) (FLT_MAX, 0) = r at hprev ⊢
    unfold NearestStep
    simp only
    rcases hprev with ⟨hn, hr⟩ | ⟨hidx, hdist, hmin, hfirst⟩
    · subst hn
      subst hr
      have h0 := hfin 0 (Nat.lt_succ_self 0)
      simp only [h0, if_true]
      refine ⟨Nat.lt_succ_self 0, trivial, ?_, ?_⟩
      · intro i hi
        have hi0 : i = 0 := by omega
        subst hi0
        exact le_refl _
      · intro i hi
        omega
    · by_cases hlt : FVector.DistSquared Location (m.Listener n).Transform.Translation < r.1
      · simp only [hlt, if_true]
        refine ⟨Nat.lt_succ_self n, trivial, ?_, ?_⟩
        · intro i hi
          rcases Nat.lt_succ_iff_lt_or_eq.mp hi with hin | hin
          · exact le_of_lt (lt_of_lt_of_le hlt (hmin i hin))
          · subst hin
            exact le_refl _
        · intro i hi
          exact lt_of_lt_of_le hlt (hmin i hi)
      · simp only [hlt, if_false]
        refine ⟨Nat.lt_succ_of_lt hidx, hdist, ?_, hfirst⟩
        intro i hi
        rcases Nat.lt_succ_iff_lt_or_eq.mp hi with hin | hin
        · exact hmin i hin
        · subst hin
          exact not_lt.mp hlt

end FFMODStudioModule

/-- The state `ThreeListenerModule` is reached from the constructed module by public
calls. -/
theorem ThreeListenerModule_reachable :
    RunCalls FFMODStudioModule.new ThreeListenerCalls = ThreeListenerModule := by
  simp [RunCalls, ThreeListenerCalls, ModuleCall.apply, FFMODStudioModule.SetInPIE,
    FFMODStudioModule.ResetInterpolation, FFMODStudioModule.SetListenerPosition,
    FFMODStudioModule.new, MAX_LISTENERS, FFMODStudioModule.Listener, EmptyWorld,
    FFMODListener.ApplyInteriorSettings, ThreeListenerModule, RunningModule, ListenerAtX,
    TransformAtX, FFMODListener.new, FTransform.Identity, FVector.ZeroVector, FVector.sub,
    FVector.div, List.replicate]

/-- The squared distances from the origin to the three active listeners of
`ThreeListenerModule`: 16, 1 and 1. -/
theorem ThreeListenerModule_distances :
    FVector.DistSquared ⟨0, 0, 0⟩ (ThreeListenerModule.Listener 0).Transform.Translation = 16 ∧
      FVector.DistSquared ⟨0, 0, 0⟩ (ThreeListenerModule.Listener 1).Transform.Translation = 1 ∧
      FVector.DistSquared ⟨0, 0, 0⟩ (ThreeListenerModule.Listener 2).Transform.Translation = 1 := by
  refine ⟨?_, ?_, ?_⟩ <;>
  norm_num [FVector.DistSquared, ThreeListenerModule, FFMODStudioModule.Listener, ListenerAtX,
    TransformAtX]

/-- C7: with at least one active listener and all squared distances from the query point
to the active listeners below `FLT_MAX`, `GetNearestListener` returns the active listener
of least squared distance, and among those of least distance the one of lowest index; it
returns listener 0 when all active listeners are equidistant. -/
theorem GetNearestListener_lowest_minimiser (m : FFMODStudioModule) (Location : FVector)
    (hcount : 1 ≤ m.ListenerCount)
    (hfin : ∀ i : Nat, (i : Int) < m.ListenerCount →
      FVector.DistSquared Location (m.Listener i).Transform.Translation < FLT_MAX) :
    m.GetNearestListener Location = m.Listener (m.GetNearestListenerIndex Location) ∧
      ((m.GetNearestListenerIndex Location : Nat) : Int) < m.ListenerCount ∧
      (∀ i : Nat, (i : Int) < m.ListenerCount →
        FVector.DistSquared Location
            (m.Listener (m.GetNearestListenerIndex Location)).Transform.Translation ≤
          FVector.DistSquared Location (m.Listener i).Transform.Translation) ∧
      (∀ i : Nat, i < m.GetNearestListenerIndex Location →
        FVector.DistSquared Location
            (m.Listener (m.GetNearestListenerIndex Location)).Transform.Translation <
          FVector.DistSquared Location (m.Listener i).Transform.Translation) ∧
      ((∀ i : Nat, (i : Int) < m.ListenerCount →
          FVector.DistSquared Location (m.Listener i).Transform.Translation =
            FVector.DistSquared Location (m.Listener 0).Transform.Translation) →
        m.GetNearestListener Location = m.Listener 0) := by
  have hfold := FFMODStudioModule.NearestStep_fold m Location m.ListenerCount.toNat
    (fun i hi => hfin i (by omega))
  have hpos : m.ListenerCount.toNat ≠ 0 := by omega
  rcases hfold with ⟨hz, _⟩ | ⟨hidx, hdist, hmin, hfirst⟩
  · exact absurd hz hpos
  · have hidx2 : ((m.GetNearestListenerIndex Location : Nat) : Int) < m.ListenerCount := by
      unfold FFMODStudioModule.GetNearestListenerIndex
      omega
    have hleast : ∀ i : Nat, (i : Int) < m.ListenerCount →
        FVector.DistSquared Location
            (m.Listener (m.GetNearestListenerIndex Location)).Transform.Translation ≤
          FVector.DistSquared Location (m.Listener i).Transform.Translation := by
      intro i hi
      have h := hmin i (by omega)
      rw [hdist] at h
      exact h
    have hlow : ∀ i : Nat, i < m.GetNearestListenerIndex Location →
        FVector.DistSquared Location
            (m.Listener (m.GetNearestListenerIndex Location)).Transform.Translation <
          FVector.DistSquared Location (m.Listener i).Transform.Translation := by
      intro i hi
      have h := hfirst i hi
      rw [hdist] at h
      exact h
    refine ⟨rfl, hidx2, hleast, hlow, ?_⟩
    intro hequi
    have hzero : m.GetNearestListenerIndex Location = 0 := by
      by_contra hne
      have hposidx : 0 < m.GetNearestListenerIndex Location := Nat.pos_of_ne_zero hne
      have h1 := hlow 0 hposidx
      have h2 := hequi (m.GetNearestListenerIndex Location) hidx2
      rw [h2] at h1
      exact lt_irrefl _ h1
    unfold FFMODStudioModule.GetNearestListener
    rw [hzero]

theorem GetNearestListener_lowest_minimiser_witness :
    ((1 : Int) ≤ ThreeListenerModule.ListenerCount ∧
        ∀ i : Nat, (i : Int) < ThreeListenerModule.ListenerCount →
          FVector.DistSquared ⟨0, 0, 0⟩ (ThreeListenerModule.Listener i).Transform.Translation
            < FLT_MAX) ∧
      ThreeListenerModule.GetNearestListenerIndex ⟨0, 0, 0⟩ = 1 ∧
      ThreeListenerModule.GetNearestListener ⟨0, 0, 0⟩ = ListenerAtX 1 := by
  obtain ⟨hd0, hd1, hd2⟩ := ThreeListenerModule_distances
  have hc : ThreeListenerModule.ListenerCount = 3 := rfl
  have hcount : (1 : Int) ≤ ThreeListenerModule.ListenerCount := by rw [hc]; decide
  have hfin : ∀ i : Nat, (i : Int) < ThreeListenerModule.ListenerCount →
      FVector.DistSquared ⟨0, 0, 0⟩ (ThreeListenerModule.Listener i).Transform.Translation
        < FLT_MAX := by
    intro i hi
    have hi3 : i < 3 := by omega
    interval_cases i
    · rw [hd0]; norm_num [FLT_MAX]
    · rw [hd1]; norm_num [FLT_MAX]
    · rw [hd2]; norm_num [FLT_MAX]
  obtain ⟨hret, hidx, hleast, hlow, _⟩ :=
    GetNearestListener_lowest_minimiser ThreeListenerModule ⟨0, 0, 0⟩ hcount hfin
  have hindex : ThreeListenerModule.GetNearestListenerIndex ⟨0, 0, 0⟩ = 1 := by
    have h1 := hleast 1 (by rw [hc]; decide)
    generalize ThreeListenerModule.GetNearestListenerIndex ⟨0, 0, 0⟩ = b at hidx hleast hlow h1
    have hb3 : b < 3 := by omega
    interval_cases b
    · rw [hd0, hd1] at h1
      norm_num at h1
    · rfl
    · have h2 := hlow 1 (by decide)
      rw [hd2, hd1] at h2
      exact absurd h2 (lt_irrefl _)
  refine ⟨⟨hcount, hfin⟩, hindex, ?_⟩
  rw [hret, hindex]
  simp [ThreeListenerModule, FFMODStudioModule.Listener]

/-! ## The blend loop against its specification -/

/-- One pass over the list is the specified pass. -/
theorem BlendList_eq_BlendSpec (NewSnapshot : Option Nat) (t : ℚ)
    (Snapshots : List FFMODSnapshotEntry) :
    BlendList NewSnapshot t Snapshots = BlendSpec NewSnapshot t Snapshots := by
  induction Snapshots with
  | nil => simp [BlendList, BlendSpec]
  | cons e Rest ih =>
    simp only [BlendList, ih]
    simp only [BlendSpec, List.filterMap_cons, List.map_cons, List.flatten_cons, BlendEntrySpec]
    by_cases hsel : e.Snapshot = NewSnapshot
    · simp [hsel]
    · by_cases hend : e.FadeIntensityEnd = 0
      · by_cases hzero : e.CurrentIntensity t = 0
        · simp [hsel, hend, hzero]
        · simp [hsel, hend, hzero]
      · simp [hsel, hend]

/-- Every entry gets exactly one intensity push in the specified pass, in entry order. -/
theorem BlendSpec_pushes (NewSnapshot : Option Nat) (t : ℚ)
    (Snapshots : List FFMODSnapshotEntry) :
    IntensityPushes (BlendSpec NewSnapshot t Snapshots).2 =
      Snapshots.map (fun e => (e.Instance, 100 * e.CurrentIntensity t)) := by
  induction Snapshots with
  | nil => simp [BlendSpec, IntensityPushes]
  | cons e Rest ih =>
    have hsplit : (BlendSpec NewSnapshot t (e :: Rest)).2 =
        (BlendEntrySpec NewSnapshot t e).2 ++ (BlendSpec NewSnapshot t Rest).2 := by
      simp [BlendSpec]
    have hone : IntensityPushes (BlendEntrySpec NewSnapshot t e).2 =
        [(e.Instance, 100 * e.CurrentIntensity t)] := by
      unfold BlendEntrySpec IntensityPushes
      simp only
      split_ifs <;> simp
    rw [hsplit]
    unfold IntensityPushes at ih hone ⊢
    rw [List.filterMap_append, hone, ih]
    simp

/-- C15: for every list of entries, every selected descriptor and a fixed tick time, the
in-place blend loop (`RemoveAt(i)` followed by `--i`; a total function) equals the
list-level specification that applies the per-entry step to each entry once, in order, and
keeps the survivors in their relative order; resumed at any index it leaves the entries
before the index alone and applies the step to every entry from the index on, so the
entry that shifts into a vacated slot is examined; and every entry gets exactly one
intensity push. -/
theorem BlendLoop_refines_BlendSpec (NewSnapshot : Option Nat) (t : ℚ)
    (Snapshots Pre Suf : List FFMODSnapshotEntry) :
    FFMODStudioModule.BlendLoop NewSnapshot t 0 Snapshots = BlendSpec NewSnapshot t Snapshots ∧
      FFMODStudioModule.BlendLoop NewSnapshot t Pre.length (Pre ++ Suf) =
        (Pre ++ (BlendSpec NewSnapshot t Suf).1, (BlendSpec NewSnapshot t Suf).2) ∧
      IntensityPushes (FFMODStudioModule.BlendLoop NewSnapshot t 0 Snapshots).2 =
        Snapshots.map (fun e => (e.Instance, 100 * e.CurrentIntensity t)) := by
  refine ⟨?_, ?_, ?_⟩
  · rw [FFMODStudioModule.BlendLoop_eq_BlendList, BlendList_eq_BlendSpec]
  · rw [FFMODStudioModule.BlendLoop_append, BlendList_eq_BlendSpec]
  · rw [FFMODStudioModule.BlendLoop_eq_BlendList, BlendList_eq_BlendSpec, BlendSpec_pushes]

/-- Two adjacent faded-out entries are both removed in one tick: the second one, which
shifts into the slot of the first, is examined too. -/
theorem BlendLoop_removes_adjacent :
    FFMODStudioModule.BlendLoop none 1 0
        [FadedOutEntry, { FadedOutEntry with Snapshot := some 4, Instance := some 40 }] =
      ([], [EngineOp.setParameterValue (some 30) 0, EngineOp.stop (some 30),
        EngineOp.release (some 30), EngineOp.setParameterValue (some 40) 0,
        EngineOp.stop (some 40), EngineOp.release (some 40)]) := by
  rw [FFMODStudioModule.BlendLoop_eq_BlendList]
  simp [BlendList, FadedOutEntry, FFMODSnapshotEntry.CurrentIntensity]

/-! ## Dominant volume -/

namespace FFMODStudioModule

/-- The dominant-volume loop after `n` iterations: nothing found and no listener so far
has a volume, or the volume found belongs to the lowest-indexed listener among those of
greatest priority so far. -/
theorem BestVolumeStep_fold (Listeners : List FFMODListener) (n : Nat) :
    ((List.range n).foldl
          (fun BestVolume i =>
            BestVolumeStep BestVolume (Listeners.getD i FFMODListener.new).Volume) none = none ∧
        ∀ i < n, (Listeners.getD i FFMODListener.new).Volume = none) ∨
      ∃ j b, j < n ∧
        (List.range n).foldl
          (fun BestVolume i =>
            BestVolumeStep BestVolume (Listeners.getD i FFMODListener.new).Volume) none = some b ∧
        (Listeners.getD j FFMODListener.new).Volume = some b ∧
        (∀ i < n, ∀ c, (Listeners.getD i FFMODListener.new).Volume = some c →
          c.Priority ≤ b.Priority) ∧
        (∀ i < j, ∀ c, (Listeners.getD i FFMODListener.new).Volume = some c →
          c.Priority < b.Priority) := by
  induction n with
  | zero =>
    left
    exact ⟨rfl, fun i hi => absurd hi (Nat.not_lt_zero i)⟩
  | succ n ih =>
    rw [List.range_succ, List.foldl_append]
    simp only [List.foldl_cons, List.foldl_nil]
    rcases ih with ⟨hnone, hall⟩ | ⟨j, b, hj, hbest, hvol, hmax, hfirst⟩
    · rw [hnone]
      cases hcand : (Listeners.getD n FFMODListener.new).Volume with
      | none =>
        left
        refine ⟨rfl, ?_⟩
        intro i hi
        rcases Nat.lt_succ_iff_lt_or_eq.mp hi with hin | hin
        · exact hall i hin
        · rw [hin]; exact hcand
      | some c =>
        right
        refine ⟨n, c, Nat.lt_succ_self n, rfl, hcand, ?_, ?_⟩
        · intro i hi c2 hc2
          rcases Nat.lt_succ_iff_lt_or_eq.mp hi with hin | hin
          · rw [hall i hin] at hc2
            exact absurd hc2 (by simp)
          · rw [hin, hcand] at hc2
            rw [Option.some.inj hc2]
        · intro i hi c2 hc2
          rw [hall i hi] at hc2
          exact absurd hc2 (by simp)
    · rw [hbest]
      right
      cases hcand : (Listeners.getD n FFMODListener.new).Volume with
      | none =>
        refine ⟨j, b, Nat.lt_succ_of_lt hj, rfl, hvol, ?_, hfirst⟩
        intro i hi c2 hc2
        rcases Nat.lt_succ_iff_lt_or_eq.mp hi with hin | hin
        · exact hmax i hin c2 hc2
        · rw [hin, hcand] at hc2
          exact absurd hc2 (by simp)
      | some c =>
        by_cases hgt : c.Priority > b.Priority
        · refine ⟨n, c, Nat.lt_succ_self n, ?_, hcand, ?_, ?_⟩
          · simp [BestVolumeStep, hgt]
          · intro i hi c2 hc2
            rcases Nat.lt_succ_iff_lt_or_eq.mp hi with hin | hin
            · exact le_of_lt (lt_of_le_of_lt (hmax i hin c2 hc2) hgt)
            · rw [hin, hcand] at hc2
              rw [Option.some.inj hc2]
          · intro i hi c2 hc2
            exact lt_of_le_of_lt (hmax i hi c2 hc2) hgt
        · refine ⟨j, b, Nat.lt_succ_of_lt hj, ?_, hvol, ?_, hfirst⟩
          · simp [BestVolumeStep, hgt]
          · intro i hi c2 hc2
            rcases Nat.lt_succ_iff_lt_or_eq.mp hi with hin | hin
            · exact hmax i hin c2 hc2
            · rw [hin, hcand] at hc2
              rw [← Option.some.inj hc2]
              exact not_lt.mp hgt

end FFMODStudioModule

/-- C14: the dominant volume selected over the active listeners `0 .. Count - 1` is none
exactly when every active listener has no volume; otherwise it is the volume of an active
listener whose priority is at least the priority of every active listener's volume, and
every active listener of lower index that has a volume has a strictly lower priority (so
among several volumes of the greatest priority the lowest-indexed listener wins, and a
null candidate never replaces a volume already found). -/
theorem SelectBestVolume_dominant (Listeners : List FFMODListener) (Count : Int) :
    (FFMODStudioModule.SelectBestVolume Listeners Count = none ↔
        ∀ i : Nat, (i : Int) < Count → (Listeners.getD i FFMODListener.new).Volume = none) ∧
      ∀ b, FFMODStudioModule.SelectBestVolume Listeners Count = some b →
        ∃ j : Nat, (j : Int) < Count ∧ (Listeners.getD j FFMODListener.new).Volume = some b ∧
          (∀ i : Nat, (i : Int) < Count → ∀ c,
            (Listeners.getD i FFMODListener.new).Volume = some c → c.Priority ≤ b.Priority) ∧
          (∀ i : Nat, i < j → ∀ c,
            (Listeners.getD i FFMODListener.new).Volume = some c → c.Priority < b.Priority) := by
  unfold FFMODStudioModule.SelectBestVolume
  rcases FFMODStudioModule.BestVolumeStep_fold Listeners Count.toNat with
    ⟨hnone, hall⟩ | ⟨j, b, hj, hbest, hvol, hmax, hfirst⟩
  · refine ⟨⟨fun _ i hi => hall i (by omega), fun _ => hnone⟩, ?_⟩
    intro b hb
    rw [hnone] at hb
    exact absurd hb (by simp)
  · refine ⟨⟨?_, ?_⟩, ?_⟩
    · intro h
      rw [hbest] at h
      exact absurd h (by simp)
    · intro h
      have hj2 := h j (by omega)
      rw [hvol] at hj2
      exact absurd hj2 (by simp)
    · intro b2 hb2
      rw [hbest] at hb2
      have hbb : b = b2 := Option.some.inj hb2
      subst hbb
      exact ⟨j, by omega, hvol, fun i hi => hmax i (by omega), hfirst⟩

/-! ## Transitions of one tick -/

namespace FFMODStudioModule

/-- The selected snapshot is read off the dominant volume. -/
theorem SelectedSnapshot_eq (m : FFMODStudioModule) (NumListeners : Int) :
    m.SelectedSnapshot NumListeners = SelectNewSnapshot (m.DominantVolume NumListeners) := rfl

/-- The entry list after a tick that passes the guard on the runtime studio system. -/
theorem FinishSetListenerPosition_running (m : FFMODStudioModule) (Studio : StudioSystem)
    (t : ℚ) (NumListeners : Int) (DeltaSeconds : ℚ) (hsys : m.StudioSystemRuntime = true) :
    (m.FinishSetListenerPosition Studio t NumListeners DeltaSeconds).1.ReverbSnapshots =
      (BlendList (m.SelectedSnapshot NumListeners) t
        (SelectEntry Studio t (m.DominantVolume NumListeners) (m.SelectedSnapshot NumListeners)
          m.ReverbSnapshots).1).1 := by
  rw [FinishSetListenerPosition_ReverbSnapshots]
  have hne : ¬ m.StudioSystemRuntime = false := by simp [hsys]
  rw [if_neg hne]
  rfl

/-- The search for an old entry fails when no entry references the snapshot. -/
theorem StealOldEntry_eq_none (NewSnapshot : Nat) (Snapshots : List FFMODSnapshotEntry) :
    ∀ Index : Nat, (∀ e ∈ Snapshots, e.Snapshot ≠ some NewSnapshot) →
      StealOldEntry NewSnapshot Snapshots Index = none := by
  induction Snapshots with
  | nil => intro _ _; rfl
  | cons a Rest ih =>
    intro Index h
    have ha : a.Snapshot ≠ some NewSnapshot := h a (List.mem_cons_self a Rest)
    simp only [StealOldEntry, ha, if_false]
    exact ih (Index + 1) (fun e he => h e (List.mem_cons_of_mem a he))

/-- One pass of the blend loop distributes over concatenation. -/
theorem BlendList_append (NewSnapshot : Option Nat) (t : ℚ)
    (Xs Ys : List FFMODSnapshotEntry) :
    BlendList NewSnapshot t (Xs ++ Ys) =
      ((BlendList NewSnapshot t Xs).1 ++ (BlendList NewSnapshot t Ys).1,
        (BlendList NewSnapshot t Xs).2 ++ (BlendList NewSnapshot t Ys).2) := by
  simp [BlendList_eq_BlendSpec, BlendSpec]

/-- An entry with a non-zero target is left alone by "fade up". -/
theorem FadeUp_mem_of_target_ne_zero (Snapshots : List FFMODSnapshotEntry) (i : Nat) (t : ℚ)
    (Best : AAudioVolume) (e : FFMODSnapshotEntry) (he : e ∈ Snapshots)
    (hend : e.FadeIntensityEnd ≠ 0) : e ∈ FadeUp Snapshots i t Best := by
  rcases FadeUp_mem Snapshots i t Best e he with hin | ⟨hget, _⟩
  · exact hin
  · unfold FadeUp
    rw [hget]
    simp only [hend, if_false]
    exact he

/-- The entry at the index that is faded up, when its target is zero, is replaced by its
faded version. -/
theorem FadeUp_at (Snapshots : List FFMODSnapshotEntry) (i : Nat) (t : ℚ)
    (Best : AAudioVolume) (e : FFMODSnapshotEntry) (hget : Snapshots[i]? = some e)
    (hend : e.FadeIntensityEnd = 0) :
    e.FadeTo t Best.Settings.Volume Best.Settings.FadeTime ∈ FadeUp Snapshots i t Best := by
  obtain ⟨hi, _⟩ := List.getElem?_eq_some.mp hget
  unfold FadeUp
  rw [hget]
  simp only [hend, if_true]
  exact List.mem_set _ _ hi _

/-- An entry with a non-zero target is left alone by find-or-create. -/
theorem SelectEntry_mem_of_target_ne_zero (Studio : StudioSystem) (t : ℚ)
    (BestVolume : Option AAudioVolume) (NewSnapshot : Option Nat)
    (Snapshots : List FFMODSnapshotEntry) (e : FFMODSnapshotEntry) (he : e ∈ Snapshots)
    (hend : e.FadeIntensityEnd ≠ 0) :
    e ∈ (SelectEntry Studio t BestVolume NewSnapshot Snapshots).1 := by
  unfold SelectEntry
  cases NewSnapshot with
  | none => exact he
  | some Snapshot =>
    cases BestVolume with
    | none => exact he
    | some Best =>
      simp only
      cases StealOldEntry Snapshot Snapshots 0 with
      | some Index =>
        exact FadeUp_mem_of_target_ne_zero Snapshots Index t Best e he hend
      | none =>
        exact FadeUp_mem_of_target_ne_zero _ Snapshots.length t Best e
          (List.mem_append_left _ he) hend

/-- An entry that is not the selected one and has a non-zero target is replaced, in the
blend loop, by its down-ramp with the same duration. -/
theorem BlendList_ramps_down (NewSnapshot : Option Nat) (t : ℚ)
    (Snapshots : List FFMODSnapshotEntry) (e : FFMODSnapshotEntry) (he : e ∈ Snapshots)
    (hns : e.Snapshot ≠ NewSnapshot) (hend : e.FadeIntensityEnd ≠ 0) :
    e.FadeTo t 0 e.FadeDuration ∈ (BlendList NewSnapshot t Snapshots).1 := by
  induction Snapshots with
  | nil => simp at he
  | cons a Rest ih =>
    simp only [BlendList]
    rcases List.mem_cons.mp he with rfl | hrest
    · simp [hns, hend]
    · have h := ih hrest
      split_ifs <;> simp [h]

end FFMODStudioModule

/-- C12: in a tick at time `t` that passes the guard on the runtime studio system, an
entry whose descriptor is not the selected one and whose `FadeIntensityEnd` is non-zero
before the tick is present after it with `FadeIntensityEnd = 0`, its `FadeDuration`
unchanged, `StartTime = t` and `FadeIntensityStart` equal to its `CurrentIntensity` at `t`
computed from the old fade state. -/
theorem down_ramp_keeps_duration (m : FFMODStudioModule) (Studio : StudioSystem) (t : ℚ)
    (NumListeners : Int) (DeltaSeconds : ℚ) (e : FFMODSnapshotEntry)
    (hsys : m.StudioSystemRuntime = true) (he : e ∈ m.ReverbSnapshots)
    (hns : e.Snapshot ≠ m.SelectedSnapshot NumListeners) (hend : e.FadeIntensityEnd ≠ 0) :
    ∃ k ∈ (m.FinishSetListenerPosition Studio t NumListeners DeltaSeconds).1.ReverbSnapshots,
      k.Snapshot = e.Snapshot ∧ k.Instance = e.Instance ∧ k.FadeIntensityEnd = 0 ∧
        k.FadeDuration = e.FadeDuration ∧ k.StartTime = t ∧
        k.FadeIntensityStart = e.CurrentIntensity t := by
  rw [FFMODStudioModule.FinishSetListenerPosition_running m Studio t NumListeners DeltaSeconds hsys]
  have hin := FFMODStudioModule.SelectEntry_mem_of_target_ne_zero Studio t
    (m.DominantVolume NumListeners) (m.SelectedSnapshot NumListeners) m.ReverbSnapshots e he hend
  exact ⟨e.FadeTo t 0 e.FadeDuration,
    FFMODStudioModule.BlendList_ramps_down _ t _ e hin hns hend, rfl, rfl, rfl, rfl, rfl, rfl⟩

namespace FFMODStudioModule

/-- "Fade up" on an entry just pushed at the end of the list, with target zero. -/
theorem FadeUp_append_new (Snapshots : List FFMODSnapshotEntry) (a : FFMODSnapshotEntry)
    (t : ℚ) (Best : AAudioVolume) (hend : a.FadeIntensityEnd = 0) :
    FadeUp (Snapshots ++ [a]) Snapshots.length t Best =
      Snapshots ++ [a.FadeTo t Best.Settings.Volume Best.Settings.FadeTime] := by
  have hget : (Snapshots ++ [a])[Snapshots.length]? = some a := by
    rw [List.getElem?_append_right (le_refl _)]
    simp
  unfold FadeUp
  rw [hget]
  simp only [hend, if_true]
  rw [List.set_append_right _ _ (le_refl _)]
  simp

/-- No entry that survives the blend loop has a descriptor that no entry had before. -/
theorem BlendList_absent (NewSnapshot : Option Nat) (t : ℚ)
    (Snapshots : List FFMODSnapshotEntry) (d : Option Nat)
    (habsent : ∀ e ∈ Snapshots, e.Snapshot ≠ d) :
    ∀ k ∈ (BlendList NewSnapshot t Snapshots).1, k.Snapshot ≠ d := by
  intro k hk hkd
  have hmem : k.Snapshot ∈ (BlendList NewSnapshot t Snapshots).1.map (fun e => e.Snapshot) :=
    List.mem_map.mpr ⟨k, hk, rfl⟩
  have hsub := (BlendList_descriptors_sublist NewSnapshot t Snapshots).subset hmem
  obtain ⟨e, he, hed⟩ := List.mem_map.mp hsub
  exact habsent e he (hed.trans hkd)

/-- Entries of one list with the same descriptor are the same entry when descriptors are
unique. -/
theorem UniqueDescriptors_eq (Snapshots : List FFMODSnapshotEntry)
    (huniq : UniqueDescriptors Snapshots) (a e : FFMODSnapshotEntry) (ha : a ∈ Snapshots)
    (he : e ∈ Snapshots) (hsame : a.Snapshot = e.Snapshot) : a = e :=
  List.inj_on_of_nodup_map ((UniqueDescriptors_iff_nodup Snapshots).mp huniq) ha he hsame

end FFMODStudioModule

/-- C11: in a tick at time `t ≥ 0` that passes the guard on the runtime studio system and
selects a snapshot descriptor `s` (from the dominant volume `b`) that no entry references,
`ReverbSnapshots` afterwards is the blend loop's result on the old entries followed by one
new entry for `s` with `StartTime = t`, `FadeIntensityStart = 0`, `FadeIntensityEnd` the
volume's blend volume and `FadeDuration` the volume's fade time; no other entry references
`s`. -/
theorem absent_descriptor_ramps_up (m : FFMODStudioModule) (Studio : StudioSystem) (t : ℚ)
    (NumListeners : Int) (DeltaSeconds : ℚ) (s : Nat) (b : AAudioVolume)
    (hsys : m.StudioSystemRuntime = true) (ht : 0 ≤ t)
    (hsel : m.SelectedSnapshot NumListeners = some s)
    (hbest : m.DominantVolume NumListeners = some b)
    (habsent : ∀ e ∈ m.ReverbSnapshots, e.Snapshot ≠ some s) :
    (m.FinishSetListenerPosition Studio t NumListeners DeltaSeconds).1.ReverbSnapshots =
        (FFMODStudioModule.BlendLoop (some s) t 0 m.ReverbSnapshots).1 ++
          [{ Snapshot := some s
             Instance := (FFMODStudioModule.CreateNewInstance Studio s).1
             StartTime := t
             FadeDuration := b.Settings.FadeTime
             FadeIntensityStart := 0
             FadeIntensityEnd := b.Settings.Volume }] ∧
      ∀ k ∈ (FFMODStudioModule.BlendLoop (some s) t 0 m.ReverbSnapshots).1,
        k.Snapshot ≠ some s := by
  rw [FFMODStudioModule.FinishSetListenerPosition_running m Studio t NumListeners DeltaSeconds hsys,
    hsel, hbest, FFMODStudioModule.BlendLoop_eq_BlendList]
  refine ⟨?_, FFMODStudioModule.BlendList_absent (some s) t m.ReverbSnapshots (some s) habsent⟩
  have hsteal := FFMODStudioModule.StealOldEntry_eq_none s m.ReverbSnapshots 0 habsent
  have hzero : (FFMODSnapshotEntry.new (some s)
      (FFMODStudioModule.CreateNewInstance Studio s).1).CurrentIntensity t = 0 := by
    apply FFMODSnapshotEntry.CurrentIntensity_of_le
    simpa [FFMODSnapshotEntry.new] using ht
  have hselect : (FFMODStudioModule.SelectEntry Studio t (some b) (some s) m.ReverbSnapshots).1 =
      m.ReverbSnapshots ++
        [{ Snapshot := some s
           Instance := (FFMODStudioModule.CreateNewInstance Studio s).1
           StartTime := t
           FadeDuration := b.Settings.FadeTime
           FadeIntensityStart := 0
           FadeIntensityEnd := b.Settings.Volume }] := by
    unfold FFMODStudioModule.SelectEntry
    simp only [hsteal]
    rw [FFMODStudioModule.FadeUp_append_new _ _ t b rfl]
    simp only [FFMODSnapshotEntry.FadeTo, hzero]
    rfl
  rw [hselect, FFMODStudioModule.BlendList_append]
  simp [BlendList]

/-- C13, the claim as stated fails for the blend volume 0: the entry of the selected
descriptor 7 has target 0, equal to the dominant volume's blend volume 0, and the tick at
time 1 restarts its fade (`StartTime` goes from 0 to 1). -/
theorem reselect_restarts_zero_target :
    IdleEntry ∈ RunningModuleSilent.ReverbSnapshots ∧
      RunningModuleSilent.SelectedSnapshot 1 = IdleEntry.Snapshot ∧
      RunningModuleSilent.DominantVolume 1 = some SilentVolume ∧
      IdleEntry.FadeIntensityEnd = SilentVolume.Settings.Volume ∧
      (0 ≤ SilentVolume.Settings.Volume ∧ SilentVolume.Settings.Volume ≤ 1) ∧
      (RunningModuleSilent.FinishSetListenerPosition StudioWithEvents 1 1 0).1.ReverbSnapshots =
        [{ IdleEntry with StartTime := 1 }] ∧
      IdleEntry ∉
        (RunningModuleSilent.FinishSetListenerPosition StudioWithEvents 1 1 0).1.ReverbSnapshots := by
  have hdom : RunningModuleSilent.DominantVolume 1 = some SilentVolume := by
    simp [FFMODStudioModule.DominantVolume, RunningModuleSilent, RunningModule,
      FFMODStudioModule.new, MAX_LISTENERS, FFMODStudioModule.ShrinkListenerCount,
      FFMODStudioModule.UpdateInterior, FFMODStudioModule.SelectBestVolume,
      FFMODStudioModule.BestVolumeStep, FFMODListener.new,
      FFMODListener.UpdateCurrentInteriorSettings, List.range, List.range.loop]
  have hsel : RunningModuleSilent.SelectedSnapshot 1 = some 7 := by
    rw [FFMODStudioModule.SelectedSnapshot_eq, hdom]
    simp [FFMODStudioModule.SelectNewSnapshot, SilentVolume, CastSnapshotReverb]
  have hafter :
      (RunningModuleSilent.FinishSetListenerPosition StudioWithEvents 1 1 0).1.ReverbSnapshots =
        [{ IdleEntry with StartTime := 1 }] := by
    rw [FFMODStudioModule.FinishSetListenerPosition_running _ _ _ _ _ rfl, hsel, hdom]
    simp [RunningModuleSilent, FFMODStudioModule.SelectEntry, FFMODStudioModule.StealOldEntry,
      IdleEntry, FFMODStudioModule.FadeUp, SilentVolume, BlendList, FFMODSnapshotEntry.FadeTo,
      FFMODSnapshotEntry.CurrentIntensity, Lerp]
  refine ⟨by simp [RunningModuleSilent], hsel, hdom, rfl, ?_, hafter, ?_⟩
  · simp [SilentVolume]
  · rw [hafter]
    simp [IdleEntry]

/-- C13, amended: in a tick that passes the guard on the runtime studio system, when the
selected descriptor already has an entry whose `FadeIntensityEnd` equals the dominant
volume's blend volume and that blend volume is non-zero, the entry is left unchanged
(its fade is not restarted); when the blend volume and the target are 0 and descriptors
are unique, the entry is replaced by its `FadeTo(blend volume, fade time)` at the tick
time. -/
theorem reselect_same_target (m : FFMODStudioModule) (Studio : StudioSystem) (t : ℚ)
    (NumListeners : Int) (DeltaSeconds : ℚ) (e : FFMODSnapshotEntry) (s : Nat)
    (b : AAudioVolume) (hsys : m.StudioSystemRuntime = true) (he : e ∈ m.ReverbSnapshots)
    (hsel : m.SelectedSnapshot NumListeners = some s) (hdesc : e.Snapshot = some s)
    (hbest : m.DominantVolume NumListeners = some b)
    (htarget : e.FadeIntensityEnd = b.Settings.Volume) :
    (b.Settings.Volume ≠ 0 →
        e ∈ (m.FinishSetListenerPosition Studio t NumListeners DeltaSeconds).1.ReverbSnapshots) ∧
      (b.Settings.Volume = 0 → UniqueDescriptors m.ReverbSnapshots →
        e.FadeTo t b.Settings.Volume b.Settings.FadeTime ∈
          (m.FinishSetListenerPosition Studio t NumListeners DeltaSeconds).1.ReverbSnapshots) := by
  rw [FFMODStudioModule.FinishSetListenerPosition_running m Studio t NumListeners DeltaSeconds hsys,
    hsel, hbest]
  constructor
  · intro hvol
    have hend : e.FadeIntensityEnd ≠ 0 := by rw [htarget]; exact hvol
    exact FFMODStudioModule.BlendList_keeps_selected (some s) t _ e
      (FFMODStudioModule.SelectEntry_mem_of_target_ne_zero Studio t (some b) (some s)
        m.ReverbSnapshots e he hend) hdesc
  · intro hvol huniq
    have hend : e.FadeIntensityEnd = 0 := by rw [htarget]; exact hvol
    refine FFMODStudioModule.BlendList_keeps_selected (some s) t _
      (e.FadeTo t b.Settings.Volume b.Settings.FadeTime) ?_ hdesc
    unfold FFMODStudioModule.SelectEntry
    simp only
    cases hsteal : FFMODStudioModule.StealOldEntry s m.ReverbSnapshots 0 with
    | none =>
      exact absurd hdesc (FFMODStudioModule.StealOldEntry_none s m.ReverbSnapshots 0 hsteal e he)
    | some Index =>
      simp only
      obtain ⟨j, a, hF, hja, hsnap, _⟩ :=
        FFMODStudioModule.StealOldEntry_some s m.ReverbSnapshots 0 Index hsteal
      have hIdx : Index = j := by omega
      subst hIdx
      have ha : a ∈ m.ReverbSnapshots := List.mem_iff_getElem?.mpr ⟨Index, hja⟩
      have hae : a = e :=
        FFMODStudioModule.UniqueDescriptors_eq m.ReverbSnapshots huniq a e ha he
          (hsnap.trans hdesc.symm)
      subst hae
      exact FFMODStudioModule.FadeUp_at m.ReverbSnapshots Index t b a hja hend

/-! ## The transitions on concrete states -/

/-- With listener 0 in `ExampleVolume`, that volume is the dominant one, whatever the
entries. -/
theorem DominantVolume_in_ExampleVolume (Snapshots : List FFMODSnapshotEntry) :
    FFMODStudioModule.DominantVolume
        { RunningModuleInVolume with ReverbSnapshots := Snapshots } 1 = some ExampleVolume := by
  simp [FFMODStudioModule.DominantVolume, RunningModuleInVolume, RunningModule,
    FFMODStudioModule.new, MAX_LISTENERS, FFMODStudioModule.ShrinkListenerCount,
    FFMODStudioModule.UpdateInterior, FFMODStudioModule.SelectBestVolume,
    FFMODStudioModule.BestVolumeStep, FFMODListener.new,
    FFMODListener.UpdateCurrentInteriorSettings, List.range, List.range.loop]

/-- With listener 0 in `ExampleVolume`, snapshot 7 is selected, whatever the entries. -/
theorem SelectedSnapshot_in_ExampleVolume (Snapshots : List FFMODSnapshotEntry) :
    FFMODStudioModule.SelectedSnapshot
        { RunningModuleInVolume with ReverbSnapshots := Snapshots } 1 = some 7 := by
  rw [FFMODStudioModule.SelectedSnapshot_eq, DominantVolume_in_ExampleVolume]
  simp [FFMODStudioModule.SelectNewSnapshot, ExampleVolume, CastSnapshotReverb]

theorem absent_descriptor_ramps_up_witness :
    (RunningModuleInVolume.StudioSystemRuntime = true ∧ (0 : ℚ) ≤ 0 ∧
        RunningModuleInVolume.SelectedSnapshot 1 = some 7 ∧
        RunningModuleInVolume.DominantVolume 1 = some ExampleVolume ∧
        ∀ e ∈ RunningModuleInVolume.ReverbSnapshots, e.Snapshot ≠ some 7) ∧
      (RunningModuleInVolume.FinishSetListenerPosition StudioWithEvents 0 1 0).1.ReverbSnapshots
        = [RampingEntry] ∧
      RampingEntry.CurrentIntensity 1 = 2 / 5 ∧ RampingEntry.CurrentIntensity 2 = 4 / 5 :=
  have hsel : RunningModuleInVolume.SelectedSnapshot 1 = some 7 :=
    SelectedSnapshot_in_ExampleVolume []
  have hdom : RunningModuleInVolume.DominantVolume 1 = some ExampleVolume :=
    DominantVolume_in_ExampleVolume []
  have habsent : ∀ e ∈ RunningModuleInVolume.ReverbSnapshots, e.Snapshot ≠ some 7 := by
    intro e he
    simp [RunningModuleInVolume, RunningModule, FFMODStudioModule.new] at he
  ⟨⟨rfl, le_refl 0, hsel, hdom, habsent⟩,
    by
      have h := (absent_descriptor_ramps_up RunningModuleInVolume StudioWithEvents 0 1 0 7
        ExampleVolume rfl (le_refl 0) hsel hdom habsent).1
      rw [h, FFMODStudioModule.BlendLoop_eq_BlendList]
      simp [RunningModuleInVolume, RunningModule, FFMODStudioModule.new, BlendList,
        FFMODStudioModule.CreateNewInstance, StudioWithEvents, ExampleVolume, RampingEntry],
    by norm_num [RampingEntry, FFMODSnapshotEntry.CurrentIntensity, Lerp],
    by norm_num [RampingEntry, FFMODSnapshotEntry.CurrentIntensity, Lerp]⟩

theorem down_ramp_keeps_duration_witness :
    (RunningModuleSuperseded.StudioSystemRuntime = true ∧
        HoldingEntry ∈ RunningModuleSuperseded.ReverbSnapshots ∧
        HoldingEntry.Snapshot ≠ RunningModuleSuperseded.SelectedSnapshot 1 ∧
        HoldingEntry.FadeIntensityEnd ≠ 0) ∧
      ∃ k ∈ (RunningModuleSuperseded.FinishSetListenerPosition StudioWithEvents 5 1 0).1.ReverbSnapshots,
        k.Snapshot = HoldingEntry.Snapshot ∧ k.Instance = HoldingEntry.Instance ∧
          k.FadeIntensityEnd = 0 ∧ k.FadeDuration = HoldingEntry.FadeDuration ∧
          k.StartTime = 5 ∧ k.FadeIntensityStart = HoldingEntry.CurrentIntensity 5 :=
  have hmem : HoldingEntry ∈ RunningModuleSuperseded.ReverbSnapshots := by
    simp [RunningModuleSuperseded]
  have hns : HoldingEntry.Snapshot ≠ RunningModuleSuperseded.SelectedSnapshot 1 := by
    have h : RunningModuleSuperseded.SelectedSnapshot 1 = some 7 :=
      SelectedSnapshot_in_ExampleVolume [HoldingEntry]
    rw [h]
    simp [HoldingEntry]
  have hend : HoldingEntry.FadeIntensityEnd ≠ 0 := by
    norm_num [HoldingEntry]
  ⟨⟨rfl, hmem, hns, hend⟩,
    down_ramp_keeps_duration RunningModuleSuperseded StudioWithEvents 5 1 0 HoldingEntry rfl
      hmem hns hend⟩

theorem reselect_same_target_witness :
    (RunningModuleRamping.StudioSystemRuntime = true ∧
        RampingEntry ∈ RunningModuleRamping.ReverbSnapshots ∧
        RunningModuleRamping.SelectedSnapshot 1 = some 7 ∧ RampingEntry.Snapshot = some 7 ∧
        RunningModuleRamping.DominantVolume 1 = some ExampleVolume ∧
        RampingEntry.FadeIntensityEnd = ExampleVolume.Settings.Volume ∧
        ExampleVolume.Settings.Volume ≠ 0) ∧
      RampingEntry ∈
        (RunningModuleRamping.FinishSetListenerPosition StudioWithEvents 1 1 0).1.ReverbSnapshots :=
  have hmem : RampingEntry ∈ RunningModuleRamping.ReverbSnapshots := by
    simp [RunningModuleRamping]
  have hsel : RunningModuleRamping.SelectedSnapshot 1 = some 7 :=
    SelectedSnapshot_in_ExampleVolume [RampingEntry]
  have hdom : RunningModuleRamping.DominantVolume 1 = some ExampleVolume :=
    DominantVolume_in_ExampleVolume [RampingEntry]
  have hvol : ExampleVolume.Settings.Volume ≠ 0 := by
    norm_num [ExampleVolume]
  ⟨⟨rfl, hmem, hsel, rfl, hdom, rfl, hvol⟩,
    (reselect_same_target RunningModuleRamping StudioWithEvents 1 1 0 RampingEntry 7
      ExampleVolume rfl hmem hsel rfl hdom rfl).1 hvol⟩

/-- The tick of `RunningModuleCrowded` at time 1: the holding entry of snapshot 3 starts its
down-ramp, the faded-out entry of snapshot 4 is removed, and an entry for the selected
snapshot 7 is appended. -/
theorem RunningModuleCrowded_tick :
    (RunningModuleCrowded.FinishSetListenerPosition StudioWithEvents 1 1 0).1.ReverbSnapshots =
      [HoldingEntry.FadeTo 1 0 2,
        { Snapshot := some 7, Instance := some 107, StartTime := 1, FadeDuration := 2,
          FadeIntensityStart := 0, FadeIntensityEnd := 4 / 5 }] := by
  have hsel : RunningModuleCrowded.SelectedSnapshot 1 = some 7 :=
    SelectedSnapshot_in_ExampleVolume [HoldingEntry, FadedOutEntry4]
  have hdom : RunningModuleCrowded.DominantVolume 1 = some ExampleVolume :=
    DominantVolume_in_ExampleVolume [HoldingEntry, FadedOutEntry4]
  rw [FFMODStudioModule.FinishSetListenerPosition_running _ _ _ _ _ rfl, hsel, hdom]
  simp [RunningModuleCrowded, FFMODStudioModule.SelectEntry, FFMODStudioModule.StealOldEntry,
    HoldingEntry, FadedOutEntry4, FFMODStudioModule.FadeUp, ExampleVolume, BlendList,
    FFMODSnapshotEntry.FadeTo, FFMODSnapshotEntry.CurrentIntensity, Lerp,
    FFMODStudioModule.CreateNewInstance, StudioWithEvents, FFMODSnapshotEntry.new]

end FMODStudio
